import Mathlib

/-!
Shallow embedding of the booking-platform backend
(`routers/bookings.py`, `routers/payments.py`, `routers/reviews.py`,
`routers/promotions.py`, with the column/default information of
`models/models.py` and the request shapes of `schemas/*.py`).

Conventions used throughout:
* SQL `DECIMAL` money columns are modelled as `ℚ` (exact values, as the
  Python handlers compute them).
* `DATETIME` values are modelled as `Int` minutes; a `(date, time)` pair is
  combined exactly as `datetime.combine` is, with a day being 1440 minutes,
  so the `timedelta(days=1)` midnight rollover is `+ 1440`.
* Nullable integer foreign-key columns are `Option Nat`.  Python truthiness
  of such a value (`if booking.service_id:`) is `truthyN`: `None` and `0`
  are falsy.
* Each HTTP handler becomes a function `… → Except HErr State`; raising
  `HTTPException` is returning `.error`, and an error leaves the store
  unchanged (the handler raises before committing anything).
* `db.query(...).first()` is `List.find?`; mutating the found row is
  `updateFirst` with the same predicate; `db.delete(row)` is `List.eraseP`.
* Response bodies (the returned ORM row) are not modelled; only the store.
* Pass-through text columns that no handler branches on (currency, gateway,
  image urls, …) are omitted from the row structures.
-/

namespace BookingSys

/-- Replace the first element satisfying `p` (the row found by `.first()`)
by its image under `f`; all other rows are untouched. -/
def updateFirst (p : α → Bool) (f : α → α) : List α → List α
  | [] => []
  | x :: xs => if p x then f x :: xs else x :: updateFirst p f xs

/-- An `HTTPException`: status code and detail message. -/
structure HErr where
  code : Nat
  detail : String
deriving DecidableEq, Repr

/-- Python truthiness of a nullable integer column (`None` and `0` falsy). -/
def truthyN : Option Nat → Bool
  | none => false
  | some n => n != 0

/-- Python truthiness of a `Decimal` value (`Decimal("0.00")` is falsy). -/
def truthyQ (q : ℚ) : Bool := q != 0

/-- Python truthiness of a nullable `Decimal` column. -/
def truthyOQ : Option ℚ → Bool
  | none => false
  | some q => q != 0

/-- Python truthiness of a nullable integer column holding signed values. -/
def truthyOI : Option Int → Bool
  | none => false
  | some n => n != 0

/-- `datetime.combine(date, time)` with dates in days and times in minutes
of the day: the result is in absolute minutes. -/
def combineDT (d t : Nat) : Int := (d * 1440 + t : Nat)

/-! ## Bookings (`routers/bookings.py`) -/

/-- `models.BookingStatusEnum`. -/
inductive BStatus
  | pending | confirmed | in_progress | completed | cancelled | no_show
deriving DecidableEq, Repr

/-- The string value of a booking status (the enum is a `str` enum, and
f-strings format a member as its value). -/
def BStatus.str : BStatus → String
  | .pending => "pending"
  | .confirmed => "confirmed"
  | .in_progress => "in_progress"
  | .completed => "completed"
  | .cancelled => "cancelled"
  | .no_show => "no_show"

/-- Membership in `["completed", "cancelled", "no_show"]`, the terminal set
checked by update/cancel/participant handlers. -/
def BStatus.isTerminal : BStatus → Bool
  | .completed => true
  | .cancelled => true
  | .no_show => true
  | _ => false

/-- Membership in `["pending", "confirmed", "in_progress"]`, the statuses
counted by the resource-conflict query. -/
def BStatus.isActive : BStatus → Bool
  | .pending => true
  | .confirmed => true
  | .in_progress => true
  | _ => false

/-- A row of `availability_slots` (the columns the handlers read/write). -/
structure SlotR where
  slot_id : Nat
  service_id : Option Nat
  start_datetime : Int
  end_datetime : Int
  available_spots : Int
  booked_spots : Int
  status : String
deriving DecidableEq, Repr

/-- A row of `bookings` (the columns the handlers read/write). -/
structure BookingR where
  booking_id : Nat
  user_id : Nat
  business_id : Nat
  service_id : Option Nat
  resource_id : Option Nat
  slot_id : Option Nat
  booking_date : Nat
  start_time : Nat
  end_time : Nat
  start_datetime : Int
  end_datetime : Int
  participants : Int
  total_amount : ℚ
  final_amount : ℚ
  status : BStatus
  payment_status : String
  special_requests : Option String
  internal_notes : Option String
  cancelled_at : Option Int
  cancelled_by : Option Nat
  cancellation_reason : Option String
deriving DecidableEq, Repr

/-- A row of `booking_history`. -/
structure HistoryR where
  booking_id : Nat
  old_status : Option String
  new_status : String
  changed_by : Nat
  change_reason : Option String
deriving DecidableEq, Repr

/-- A row of `booking_participants`. -/
structure PartR where
  participant_id : Nat
  booking_id : Nat
  first_name : String
  last_name : String
  email : Option String
  phone : Option String
  age : Option Int
  special_requirements : Option String
deriving DecidableEq, Repr

/-- The slice of the store the booking router touches.  `businesses` holds
the ids of existing business rows (only existence is read here). -/
structure BDB where
  businesses : List Nat
  slots : List SlotR
  bookings : List BookingR
  participants : List PartR
  history : List HistoryR
  nextBookingId : Nat
  nextParticipantId : Nat
deriving DecidableEq, Repr

/-- The caller resolved by `get_current_active_user`, with the data the
authorization checks read: owned business ids and role names. -/
structure UserR where
  user_id : Nat
  businesses : List Nat
  roles : List String
deriving DecidableEq, Repr

/-- `any(role.role.role_name == "admin" for role in current_user.user_roles)`. -/
def UserR.isAdmin (u : UserR) : Bool := u.roles.contains "admin"

/-- The `is_owner or is_business_owner or is_admin` authorization
disjunction of the booking read/update/cancel handlers. -/
def authorizedForBooking (u : UserR) (b : BookingR) : Bool :=
  (b.user_id == u.user_id) || u.businesses.contains b.business_id || u.isAdmin

/-- The slot filter of `check_availability`: same service, slot interval
containing the requested one, status `"available"`, enough free spots. -/
def slotMatches (sid : Option Nat) (s e : Int) (parts : Int) (sl : SlotR) : Bool :=
  sl.service_id == sid && decide (sl.start_datetime ≤ s) && decide (e ≤ sl.end_datetime) &&
    sl.status == "available" && decide (parts ≤ sl.available_spots - sl.booked_spots)

/-- The conflicting-booking filter of `check_availability`: same resource,
status in `{pending, confirmed, in_progress}`, strict interval overlap. -/
def conflictsWith (rid : Option Nat) (s e : Int) (b : BookingR) : Bool :=
  b.resource_id == rid && b.status.isActive && decide (b.start_datetime < e) &&
    decide (s < b.end_datetime)

/-- `check_availability(db, service_id, resource_id, start, end, participants)`. -/
def checkAvailability (db : BDB) (sid rid : Option Nat) (s e : Int) (parts : Int) :
    Bool × String :=
  if truthyN sid && (db.slots.find? (slotMatches sid s e parts)).isNone then
    (false, "No available slots for this service at the selected time")
  else if truthyN rid &&
      decide (0 < (db.bookings.filter (conflictsWith rid s e)).length) then
    (false, "Resource is already booked for this time")
  else (true, "Available")

/-- The body of `BookingCreate` (schema fields the handler reads). -/
structure BookingCreateReq where
  business_id : Nat
  service_id : Option Nat
  resource_id : Option Nat
  slot_id : Option Nat
  booking_date : Nat
  start_time : Nat
  end_time : Nat
  participants : Int
  total_amount : ℚ
  special_requests : Option String
deriving DecidableEq, Repr

/-- `start_datetime = datetime.combine(booking_date, start_time)`. -/
def reqStart (req : BookingCreateReq) : Int := combineDT req.booking_date req.start_time

/-- `end_datetime`, with the midnight rollover (`end ≤ start ⟹ + 1 day`). -/
def reqEnd (req : BookingCreateReq) : Int :=
  let e0 := combineDT req.booking_date req.end_time
  if e0 ≤ reqStart req then e0 + 1440 else e0

/-- The booking row inserted by `create_booking` (status and payment_status
take their column defaults `pending`; `final_amount` starts equal to
`total_amount`; cancellation metadata is NULL). -/
def newBooking (u : UserR) (req : BookingCreateReq) (bid : Nat) : BookingR :=
  { booking_id := bid
    user_id := u.user_id
    business_id := req.business_id
    service_id := req.service_id
    resource_id := req.resource_id
    slot_id := req.slot_id
    booking_date := req.booking_date
    start_time := req.start_time
    end_time := req.end_time
    start_datetime := reqStart req
    end_datetime := reqEnd req
    participants := req.participants
    total_amount := req.total_amount
    final_amount := req.total_amount
    status := .pending
    payment_status := "pending"
    special_requests := req.special_requests
    internal_notes := none
    cancelled_at := none
    cancelled_by := none
    cancellation_reason := none }

/-- The history row logged by `create_booking`. -/
def createHist (u : UserR) (bid : Nat) : HistoryR :=
  { booking_id := bid, old_status := none, new_status := "pending"
    changed_by := u.user_id, change_reason := some "Booking created" }

/-- The slot update of `create_booking`: when both `service_id` and
`slot_id` are truthy, the first slot with the requested `slot_id` gets its
`booked_spots` incremented by the participant count (no capacity check). -/
def bookedSlots (req : BookingCreateReq) (slots : List SlotR) : List SlotR :=
  if truthyN req.service_id && truthyN req.slot_id then
    updateFirst (fun sl => some sl.slot_id == req.slot_id)
      (fun sl => { sl with booked_spots := sl.booked_spots + req.participants })
      slots
  else slots

/-- The store after a successful `create_booking`. -/
def createdBDB (u : UserR) (req : BookingCreateReq) (db : BDB) : BDB :=
  { db with
      bookings := db.bookings ++ [newBooking u req db.nextBookingId]
      history := db.history ++ [createHist u db.nextBookingId]
      slots := bookedSlots req db.slots
      nextBookingId := db.nextBookingId + 1 }

/-- `POST /api/bookings/` (`create_booking`). -/
def createBooking (u : UserR) (req : BookingCreateReq) (db : BDB) : Except HErr BDB :=
  if !(db.businesses.contains req.business_id) then
    .error ⟨404, "Business not found"⟩
  else if !(checkAvailability db req.service_id req.resource_id
      (reqStart req) (reqEnd req) req.participants).1 then
    .error ⟨400, (checkAvailability db req.service_id req.resource_id
      (reqStart req) (reqEnd req) req.participants).2⟩
  else .ok (createdBDB u req db)

/-- The body of `BookingUpdate`; `none` is an unset field
(`dict(exclude_unset=True)` drops it). -/
structure BookingUpdateReq where
  booking_date : Option Nat
  start_time : Option Nat
  end_time : Option Nat
  participants : Option Int
  total_amount : Option ℚ
  status : Option BStatus
  payment_status : Option String
  special_requests : Option String
  internal_notes : Option String
deriving DecidableEq, Repr

/-- `db.query(Booking).filter(Booking.booking_id == booking_id).first()`. -/
def findBooking (db : BDB) (bid : Nat) : Option BookingR :=
  db.bookings.find? (fun b => b.booking_id == bid)

/-- Whether the update touches any of `booking_date`, `start_time`,
`end_time` (the condition guarding the re-availability check). -/
def dtChanged (upd : BookingUpdateReq) : Bool :=
  upd.booking_date.isSome || upd.start_time.isSome || upd.end_time.isSome

/-- The new `start_datetime` computed by `update_booking`. -/
def updStart (b : BookingR) (upd : BookingUpdateReq) : Int :=
  combineDT (upd.booking_date.getD b.booking_date) (upd.start_time.getD b.start_time)

/-- The new `end_datetime` computed by `update_booking` (with rollover). -/
def updEnd (b : BookingR) (upd : BookingUpdateReq) : Int :=
  let e0 := combineDT (upd.booking_date.getD b.booking_date) (upd.end_time.getD b.end_time)
  if e0 ≤ updStart b upd then e0 + 1440 else e0

/-- The `setattr` loop of `update_booking` applied to the fetched row,
together with the `start_datetime`/`end_datetime` recomputation that is
added to `update_data` when a date/time field changed. -/
def applyBookingUpdate (b : BookingR) (upd : BookingUpdateReq) : BookingR :=
  { b with
      booking_date := upd.booking_date.getD b.booking_date
      start_time := upd.start_time.getD b.start_time
      end_time := upd.end_time.getD b.end_time
      participants := upd.participants.getD b.participants
      total_amount := upd.total_amount.getD b.total_amount
      status := upd.status.getD b.status
      payment_status := upd.payment_status.getD b.payment_status
      special_requests :=
        match upd.special_requests with
        | some s => some s
        | none => b.special_requests
      internal_notes :=
        match upd.internal_notes with
        | some s => some s
        | none => b.internal_notes
      start_datetime := if dtChanged upd then updStart b upd else b.start_datetime
      end_datetime := if dtChanged upd then updEnd b upd else b.end_datetime }

/-- The history rows logged by `update_booking` (one row when the update
carries a status different from the current one, none otherwise). -/
def statusHist (u : UserR) (bid : Nat) (b : BookingR) (upd : BookingUpdateReq) :
    List HistoryR :=
  match upd.status with
  | some st =>
    if st != b.status then
      [{ booking_id := bid, old_status := some b.status.str
         new_status := st.str, changed_by := u.user_id
         change_reason := some "Status updated" }]
    else []
  | none => []

/-- The store after a successful `update_booking` on the fetched row `b`. -/
def updatedBDB (u : UserR) (bid : Nat) (b : BookingR) (upd : BookingUpdateReq) (db : BDB) :
    BDB :=
  { db with
      bookings := updateFirst (fun x => x.booking_id == bid)
        (fun _ => applyBookingUpdate b upd) db.bookings
      history := db.history ++ statusHist u bid b upd }

/-- `PUT /api/bookings/{booking_id}` (`update_booking`). -/
def updateBooking (u : UserR) (bid : Nat) (upd : BookingUpdateReq) (db : BDB) :
    Except HErr BDB :=
  match findBooking db bid with
  | none => .error ⟨404, "Booking not found"⟩
  | some b =>
    if !(authorizedForBooking u b) then
      .error ⟨403, "Not authorized to update this booking"⟩
    else if b.status.isTerminal then
      .error ⟨400, "Cannot update a booking with status: " ++ b.status.str⟩
    else if dtChanged upd && !(checkAvailability db b.service_id b.resource_id
        (updStart b upd) (updEnd b upd) (upd.participants.getD b.participants)).1 then
      .error ⟨400, (checkAvailability db b.service_id b.resource_id
        (updStart b upd) (updEnd b upd) (upd.participants.getD b.participants)).2⟩
    else .ok (updatedBDB u bid b upd db)

/-- The cancelled booking row written by `cancel_booking`. -/
def cancelledBooking (now : Int) (u : UserR) (b : BookingR) (reason : String) : BookingR :=
  { b with
      status := BStatus.cancelled
      cancelled_at := some now
      cancelled_by := some u.user_id
      cancellation_reason := some reason }

/-- The slot update of `cancel_booking`: when both `service_id` and
`slot_id` of the booking are truthy, the first slot with that `slot_id`
gets `booked_spots` decremented by the participant count, floored at 0. -/
def unbookedSlots (b : BookingR) (slots : List SlotR) : List SlotR :=
  if truthyN b.service_id && truthyN b.slot_id then
    updateFirst (fun sl => some sl.slot_id == b.slot_id)
      (fun sl =>
        let nb := sl.booked_spots - b.participants
        { sl with booked_spots := if nb < 0 then 0 else nb })
      slots
  else slots

/-- The store after a successful `cancel_booking` on the fetched row `b`. -/
def cancelledBDB (now : Int) (u : UserR) (bid : Nat) (b : BookingR) (reason : String)
    (db : BDB) : BDB :=
  { db with
      bookings := updateFirst (fun x => x.booking_id == bid)
        (fun _ => cancelledBooking now u b reason) db.bookings
      history := db.history ++
        [{ booking_id := bid, old_status := some b.status.str, new_status := "cancelled"
           changed_by := u.user_id, change_reason := some reason }]
      slots := unbookedSlots b db.slots }

/-- `POST /api/bookings/{booking_id}/cancel` (`cancel_booking`);
`now` is `datetime.now()`, `reason` the `BookingCancellation` body. -/
def cancelBooking (now : Int) (u : UserR) (bid : Nat) (reason : String) (db : BDB) :
    Except HErr BDB :=
  match findBooking db bid with
  | none => .error ⟨404, "Booking not found"⟩
  | some b =>
    if !(authorizedForBooking u b) then
      .error ⟨403, "Not authorized to cancel this booking"⟩
    else if b.status.isTerminal then
      .error ⟨400, "Cannot cancel a booking with status: " ++ b.status.str⟩
    else .ok (cancelledBDB now u bid b reason db)

/-- The body of `BookingParticipantCreate`. -/
structure PartCreateReq where
  booking_id : Nat
  first_name : String
  last_name : String
  email : Option String
  phone : Option String
  age : Option Int
  special_requirements : Option String
deriving DecidableEq, Repr

/-- The body of `BookingParticipantUpdate` (`none` = unset). -/
structure PartUpdateReq where
  first_name : Option String
  last_name : Option String
  email : Option String
  phone : Option String
  age : Option Int
  special_requirements : Option String
deriving DecidableEq, Repr

/-- `POST /api/bookings/participants` (`create_booking_participant`). -/
def createParticipant (u : UserR) (req : PartCreateReq) (db : BDB) : Except HErr BDB :=
  match findBooking db req.booking_id with
  | none => .error ⟨404, "Booking not found"⟩
  | some b =>
    if b.user_id != u.user_id then
      .error ⟨403, "Not authorized to add participants to this booking"⟩
    else if b.status.isTerminal then
      .error ⟨400, "Cannot modify a booking with status: " ++ b.status.str⟩
    else
      .ok { db with
              participants := db.participants ++
                [{ participant_id := db.nextParticipantId, booking_id := req.booking_id
                   first_name := req.first_name, last_name := req.last_name
                   email := req.email, phone := req.phone, age := req.age
                   special_requirements := req.special_requirements }]
              nextParticipantId := db.nextParticipantId + 1 }

/-- The `setattr` loop of `update_booking_participant`. -/
def applyPartUpdate (p : PartR) (upd : PartUpdateReq) : PartR :=
  { p with
      first_name := upd.first_name.getD p.first_name
      last_name := upd.last_name.getD p.last_name
      email := match upd.email with | some s => some s | none => p.email
      phone := match upd.phone with | some s => some s | none => p.phone
      age := match upd.age with | some a => some a | none => p.age
      special_requirements :=
        match upd.special_requirements with
        | some s => some s
        | none => p.special_requirements }

/-- `PUT /api/bookings/participants/{participant_id}`
(`update_booking_participant`).  If the owning booking row is missing the
Python handler dereferences `None` and the request fails with a 500. -/
def updateParticipant (u : UserR) (pid : Nat) (upd : PartUpdateReq) (db : BDB) :
    Except HErr BDB :=
  match db.participants.find? (fun p => p.participant_id == pid) with
  | none => .error ⟨404, "Participant not found"⟩
  | some p =>
    match findBooking db p.booking_id with
    | none => .error ⟨500, "Internal Server Error"⟩
    | some b =>
      if b.user_id != u.user_id then
        .error ⟨403, "Not authorized to update participants for this booking"⟩
      else if b.status.isTerminal then
        .error ⟨400, "Cannot modify a booking with status: " ++ b.status.str⟩
      else
        .ok { db with
                participants := updateFirst (fun x => x.participant_id == pid)
                  (fun _ => applyPartUpdate p upd) db.participants }

/-- `DELETE /api/bookings/participants/{participant_id}`
(`delete_booking_participant`). -/
def deleteParticipant (u : UserR) (pid : Nat) (db : BDB) : Except HErr BDB :=
  match db.participants.find? (fun p => p.participant_id == pid) with
  | none => .error ⟨404, "Participant not found"⟩
  | some p =>
    match findBooking db p.booking_id with
    | none => .error ⟨500, "Internal Server Error"⟩
    | some b =>
      if b.user_id != u.user_id then
        .error ⟨403, "Not authorized to delete participants for this booking"⟩
      else if b.status.isTerminal then
        .error ⟨400, "Cannot modify a booking with status: " ++ b.status.str⟩
      else
        .ok { db with
                participants := db.participants.eraseP (fun x => x.participant_id == pid) }

/-! ## Payments and refunds (`routers/payments.py`) -/

/-- The booking columns the payment router reads/writes. -/
structure PayBooking where
  booking_id : Nat
  user_id : Nat
  business_id : Nat
  final_amount : ℚ
  payment_status : String
deriving DecidableEq, Repr

/-- A row of `payments` (the columns the handlers read/write). -/
structure PaymentR where
  payment_id : Nat
  booking_id : Nat
  amount : ℚ
  status : String
  processed_at : Option Int
deriving DecidableEq, Repr

/-- A row of `refunds` (the columns the handlers read/write). -/
structure RefundR where
  refund_id : Nat
  payment_id : Nat
  amount : ℚ
  status : String
  processed_at : Option Int
deriving DecidableEq, Repr

/-- The slice of the store the payment router touches.  `methods` holds
`(method_id, user_id)` pairs of payment-method rows. -/
structure PDB where
  methods : List (Nat × Nat)
  bookings : List PayBooking
  payments : List PaymentR
  refunds : List RefundR
  nextPaymentId : Nat
  nextRefundId : Nat
deriving DecidableEq, Repr

/-- `SUM(amount)` over payments of the booking with
`status IN ("completed", "processing")` (`or 0` for the empty sum). -/
def paidSum (pays : List PaymentR) (bid : Nat) : ℚ :=
  ((pays.filter (fun p =>
    p.booking_id == bid && (p.status == "completed" || p.status == "processing"))).map
      (fun p => p.amount)).sum

/-- As `paidSum` but excluding one payment id (the refunded one), as in the
`remaining_paid` query of `create_refund`. -/
def paidSumExcept (pays : List PaymentR) (bid pid : Nat) : ℚ :=
  ((pays.filter (fun p =>
    p.booking_id == bid && (p.status == "completed" || p.status == "processing") &&
      p.payment_id != pid)).map (fun p => p.amount)).sum

/-- `SUM(amount)` over refunds of the payment with
`status IN ("completed", "processing", "pending")`. -/
def refundSum (rs : List RefundR) (pid : Nat) : ℚ :=
  ((rs.filter (fun r =>
    r.payment_id == pid &&
      (r.status == "completed" || r.status == "processing" || r.status == "pending"))).map
    (fun r => r.amount)).sum

/-- The body of `PaymentCreate` (fields the handler branches on). -/
structure PaymentCreateReq where
  booking_id : Nat
  payment_method_id : Option Nat
  amount : ℚ
deriving DecidableEq, Repr

/-- `db.query(Booking)...first()` on the payment store. -/
def findPayBooking (db : PDB) (bid : Nat) : Option PayBooking :=
  db.bookings.find? (fun b => b.booking_id == bid)

/-- The store after a successful `create_payment`: the payment is inserted
with `status="pending"`, and the booking's `payment_status` is recomputed
from the sum of `completed`/`processing` payments (with no `else` branch:
a zero sum leaves the previous value). -/
def paymentCreatedPDB (req : PaymentCreateReq) (bk : PayBooking) (db : PDB) : PDB :=
  let pays := db.payments ++
    [{ payment_id := db.nextPaymentId, booking_id := req.booking_id
       amount := req.amount, status := "pending", processed_at := none }]
  let total := paidSum pays req.booking_id
  let newStatus :=
    if bk.final_amount ≤ total then "paid"
    else if 0 < total then "partial"
    else bk.payment_status
  { db with
      payments := pays
      bookings := updateFirst (fun x => x.booking_id == req.booking_id)
        (fun x => { x with payment_status := newStatus }) db.bookings
      nextPaymentId := db.nextPaymentId + 1 }

/-- The payment-method ownership check of `create_payment` (runs only for
a truthy `payment_method_id`). -/
def methodCheck (req : PaymentCreateReq) (bk : PayBooking) (db : PDB) : Except HErr Unit :=
  if truthyN req.payment_method_id then
    match db.methods.find? (fun m => some m.1 == req.payment_method_id) with
    | none => .error ⟨404, "Payment method not found"⟩
    | some m =>
      if m.2 != bk.user_id then
        .error ⟨403, "Payment method does not belong to the booking user"⟩
      else .ok ()
  else .ok ()

/-- `POST /api/payments/` (`create_payment`). -/
def createPayment (u : UserR) (req : PaymentCreateReq) (db : PDB) : Except HErr PDB :=
  match findPayBooking db req.booking_id with
  | none => .error ⟨404, "Booking not found"⟩
  | some bk =>
    if !((bk.user_id == u.user_id) || u.businesses.contains bk.business_id || u.isAdmin) then
      .error ⟨403, "Not authorized to create payment for this booking"⟩
    else
      match methodCheck req bk db with
      | .error e => .error e
      | .ok _ => .ok (paymentCreatedPDB req bk db)

/-- The body of `PaymentUpdate` (`none` = unset;
`gateway_transaction_id`/`gateway_response` are pass-through). -/
structure PaymentUpdateReq where
  status : Option String
  processed_at : Option Int
deriving DecidableEq, Repr

/-- The payment row after `update_payment`'s `setattr` loop and the
stamping of `processed_at` when the update sets `status="completed"` on a
payment without one. -/
def paymentAfterUpdate (now : Int) (p : PaymentR) (upd : PaymentUpdateReq) : PaymentR :=
  { p with
      status := upd.status.getD p.status
      processed_at :=
        let pa := match upd.processed_at with
          | some t => some t
          | none => p.processed_at
        if upd.status == some "completed" && pa == none then some now else pa }

/-- `PUT /api/payments/{payment_id}` (`update_payment`).  After the
`setattr` loop, reaching `status="completed"` stamps `processed_at` once;
then the booking's `payment_status` is recomputed (with `else pending`). -/
def updatePayment (now : Int) (u : UserR) (pid : Nat) (upd : PaymentUpdateReq) (db : PDB) :
    Except HErr PDB :=
  match db.payments.find? (fun p => p.payment_id == pid) with
  | none => .error ⟨404, "Payment not found"⟩
  | some p =>
    match findPayBooking db p.booking_id with
    | none => .error ⟨500, "Internal Server Error"⟩
    | some bk =>
      if !(u.businesses.contains bk.business_id || u.isAdmin) then
        .error ⟨403, "Not authorized to update this payment"⟩
      else
        let pays := updateFirst (fun x => x.payment_id == pid)
          (fun _ => paymentAfterUpdate now p upd) db.payments
        let total := paidSum pays p.booking_id
        let newStatus :=
          if bk.final_amount ≤ total then "paid"
          else if 0 < total then "partial"
          else "pending"
        .ok { db with
                payments := pays
                bookings := updateFirst (fun x => x.booking_id == p.booking_id)
                  (fun x => { x with payment_status := newStatus }) db.bookings }

/-- The body of `RefundCreate` (fields the handler branches on; the schema
validator requires `amount > 0`). -/
structure RefundCreateReq where
  payment_id : Nat
  amount : ℚ
deriving DecidableEq, Repr

/-- The refund row inserted by `create_refund` (`status="pending"`). -/
def newRefund (req : RefundCreateReq) (rid : Nat) : RefundR :=
  { refund_id := rid, payment_id := req.payment_id
    amount := req.amount, status := "pending", processed_at := none }

/-- The store after a `create_refund` that reaches the full payment amount:
the payment flips to `refunded` and the booking's `payment_status` is
recomputed from the remaining `completed`/`processing` payments. -/
def fullRefundPDB (req : RefundCreateReq) (p : PaymentR) (bk : PayBooking) (db : PDB) :
    PDB :=
  let pays1 := updateFirst (fun x => x.payment_id == req.payment_id)
    (fun x => { x with status := "refunded" }) db.payments
  let remaining := paidSumExcept pays1 bk.booking_id p.payment_id
  let newStatus :=
    if bk.final_amount ≤ remaining then "paid"
    else if 0 < remaining then "partial"
    else "refunded"
  { db with
      refunds := db.refunds ++ [newRefund req db.nextRefundId]
      payments := pays1
      bookings := updateFirst (fun x => x.booking_id == bk.booking_id)
        (fun x => { x with payment_status := newStatus }) db.bookings
      nextRefundId := db.nextRefundId + 1 }

/-- `POST /api/payments/refunds` (`create_refund`). -/
def createRefund (u : UserR) (req : RefundCreateReq) (db : PDB) : Except HErr PDB :=
  match db.payments.find? (fun p => p.payment_id == req.payment_id) with
  | none => .error ⟨404, "Payment not found"⟩
  | some p =>
    match findPayBooking db p.booking_id with
    | none => .error ⟨500, "Internal Server Error"⟩
    | some bk =>
      if !(u.businesses.contains bk.business_id || u.isAdmin) then
        .error ⟨403, "Not authorized to create refund for this payment"⟩
      else if !(p.status == "completed" || p.status == "processing") then
        .error ⟨400, "Only completed or processing payments can be refunded"⟩
      else if p.amount < req.amount + refundSum db.refunds req.payment_id then
        .error ⟨400, "Refund amount exceeds available payment amount"⟩
      else if p.amount ≤ req.amount + refundSum db.refunds req.payment_id then
        .ok (fullRefundPDB req p bk db)
      else
        .ok { db with refunds := db.refunds ++ [newRefund req db.nextRefundId],
                      nextRefundId := db.nextRefundId + 1 }

/-- The body of `RefundUpdate` (`none` = unset; `gateway_refund_id` is
pass-through; `status` is drawn from `RefundStatusEnum`). -/
structure RefundUpdateReq where
  status : Option String
  processed_at : Option Int
deriving DecidableEq, Repr

/-- The refund row after `update_refund`'s `setattr` loop and the
stamping of `processed_at` on a transition to `completed`. -/
def refundAfterUpdate (now : Int) (r : RefundR) (upd : RefundUpdateReq) : RefundR :=
  { r with
      status := upd.status.getD r.status
      processed_at :=
        let pa := match upd.processed_at with
          | some t => some t
          | none => r.processed_at
        if upd.status == some "completed" && pa == none then some now else pa }

/-- `PUT /api/payments/refunds/{refund_id}` (`update_refund`). -/
def updateRefund (now : Int) (u : UserR) (rid : Nat) (upd : RefundUpdateReq) (db : PDB) :
    Except HErr PDB :=
  match db.refunds.find? (fun r => r.refund_id == rid) with
  | none => .error ⟨404, "Refund not found"⟩
  | some r =>
    match db.payments.find? (fun p => p.payment_id == r.payment_id) with
    | none => .error ⟨500, "Internal Server Error"⟩
    | some p =>
      match findPayBooking db p.booking_id with
      | none => .error ⟨500, "Internal Server Error"⟩
      | some bk =>
        if !(u.businesses.contains bk.business_id || u.isAdmin) then
          .error ⟨403, "Not authorized to update this refund"⟩
        else
          .ok { db with
                  refunds := updateFirst (fun x => x.refund_id == rid)
                    (fun _ => refundAfterUpdate now r upd) db.refunds }

/-! ## Reviews and ratings (`routers/reviews.py`) -/

/-- A row of `reviews` (the columns the handlers read/write). -/
structure ReviewR where
  review_id : Nat
  booking_id : Nat
  user_id : Nat
  business_id : Nat
  rating : Int
  status : String
deriving DecidableEq, Repr

/-- The business columns the review router reads/writes.  (The handler also
assigns `business.review_count`, which is not a mapped column of the
`Business` model and therefore never reaches the store; it is omitted.) -/
structure BizR where
  business_id : Nat
  rating : ℚ
deriving DecidableEq, Repr

/-- The booking columns `create_review` reads. -/
structure RevBooking where
  booking_id : Nat
  user_id : Nat
  status : BStatus
deriving DecidableEq, Repr

/-- The slice of the store the review router touches. -/
structure RDB where
  businesses : List BizR
  bookings : List RevBooking
  reviews : List ReviewR
  nextReviewId : Nat
deriving DecidableEq, Repr

/-- The approved reviews of a business
(`filter(business_id == ..., status == "approved")`). -/
def approvedFor (reviews : List ReviewR) (bizId : Nat) : List ReviewR :=
  reviews.filter (fun r => r.business_id == bizId && r.status == "approved")

/-- The average computed by `update_business_rating`: the mean rating over
approved reviews, `0` when there are none. -/
def bizRatingValue (reviews : List ReviewR) (bizId : Nat) : ℚ :=
  let revs := approvedFor reviews bizId
  if revs.length != 0 then
    ((revs.map (fun r => (r.rating : ℚ))).sum) / (revs.length : ℚ)
  else 0

/-- `update_business_rating(db, business_id)`: writes the recomputed mean
to the business row (a no-op when the business row is missing). -/
def updateBusinessRating (bizId : Nat) (db : RDB) : RDB :=
  { db with
      businesses := updateFirst (fun b => b.business_id == bizId)
        (fun b => { b with rating := bizRatingValue db.reviews bizId }) db.businesses }

/-- The body of `ReviewBase` (fields the handler branches on or stores into
columns the model keeps; title/comment/pros/cons are pass-through text). -/
structure ReviewCreateReq where
  booking_id : Nat
  business_id : Nat
  rating : Int
deriving DecidableEq, Repr

/-- `POST /api/reviews/` (`create_review`); the new review takes the
column default `status="pending"`. -/
def createReview (u : UserR) (req : ReviewCreateReq) (db : RDB) : Except HErr RDB :=
  match db.bookings.find? (fun b => b.booking_id == req.booking_id && b.user_id == u.user_id) with
  | none => .error ⟨404, "Booking not found or doesn\x27t belong to you"⟩
  | some bk =>
    if bk.status != BStatus.completed then
      .error ⟨400, "Can only review completed bookings"⟩
    else
      match db.reviews.find? (fun r => r.booking_id == req.booking_id && r.user_id == u.user_id) with
      | some _ => .error ⟨400, "You have already reviewed this booking"⟩
      | none =>
        let r : ReviewR :=
          { review_id := db.nextReviewId, booking_id := req.booking_id
            user_id := u.user_id, business_id := req.business_id
            rating := req.rating, status := "pending" }
        .ok (updateBusinessRating req.business_id
          { db with reviews := db.reviews ++ [r], nextReviewId := db.nextReviewId + 1 })

/-- `PUT /api/reviews/{review_id}` (`update_review`): overwrites the
rating (and text fields) of the caller's review, then recomputes. -/
def updateReview (u : UserR) (rid : Nat) (newRating : Int) (db : RDB) : Except HErr RDB :=
  match db.reviews.find? (fun r => r.review_id == rid && r.user_id == u.user_id) with
  | none => .error ⟨404, "Review not found or doesn\x27t belong to you"⟩
  | some r =>
    .ok (updateBusinessRating r.business_id
      { db with
          reviews := updateFirst (fun x => x.review_id == rid && x.user_id == u.user_id)
            (fun x => { x with rating := newRating }) db.reviews })

/-- `DELETE /api/reviews/{review_id}` (`delete_review`). -/
def deleteReview (u : UserR) (rid : Nat) (db : RDB) : Except HErr RDB :=
  match db.reviews.find? (fun r => r.review_id == rid && r.user_id == u.user_id) with
  | none => .error ⟨404, "Review not found or doesn\x27t belong to you"⟩
  | some r =>
    .ok (updateBusinessRating r.business_id
      { db with
          reviews := db.reviews.eraseP (fun x => x.review_id == rid && x.user_id == u.user_id) })

/-- `PATCH /api/reviews/{review_id}/status` (`update_review_status`).
`newStatus` is drawn from `ReviewStatusEnum`
(`pending`/`approved`/`rejected`/`hidden`).  Note: this handler does NOT
call `update_business_rating`. -/
def updateReviewStatus (u : UserR) (rid : Nat) (newStatus : String) (db : RDB) :
    Except HErr RDB :=
  match db.reviews.find? (fun r => r.review_id == rid) with
  | none => .error ⟨404, "Review not found"⟩
  | some r =>
    if !(u.businesses.contains r.business_id) then
      .error ⟨403, "Not authorized to access this business"⟩
    else
      .ok { db with
              reviews := updateFirst (fun x => x.review_id == rid)
                (fun x => { x with status := newStatus }) db.reviews }

/-! ## Promotions (`routers/promotions.py`) -/

/-- A row of `promotions` (the columns the handlers read/write). -/
structure PromoR where
  promotion_id : Nat
  business_id : Option Nat
  code : String
  discount_type : String
  discount_value : ℚ
  minimum_amount : ℚ
  maximum_discount : Option ℚ
  usage_limit : Option Int
  usage_count : Int
  per_user_limit : Int
  valid_from : Int
  valid_until : Int
  status : String
deriving DecidableEq, Repr

/-- A row of `promotion_usage`. -/
structure UsageR where
  usage_id : Nat
  promotion_id : Nat
  user_id : Nat
  booking_id : Nat
  discount_amount : ℚ
deriving DecidableEq, Repr

/-- The slice of the store the promotion router touches; `bookings` holds
the ids of existing booking rows. -/
structure PrDB where
  promotions : List PromoR
  usages : List UsageR
  bookings : List Nat
  nextUsageId : Nat
deriving DecidableEq, Repr

/-- The body of `PromotionValidationRequest`. -/
structure ValidationReq where
  code : String
  user_id : Nat
  business_id : Option Nat
  amount : ℚ
deriving DecidableEq, Repr

/-- The failure reasons of `validate_promotion`.  The source returns
human-readable strings; they are modelled as tags, with the minimum-amount
message carrying the formatted `promotion.minimum_amount`. -/
inductive VErr
  | invalidCode
  | notActive
  | businessMismatch
  | usageLimitReached
  | perUserLimitReached
  | minAmount (m : ℚ)
deriving DecidableEq, Repr

/-- The body of `PromotionValidationResponse` (the `promotion` payload is
reduced to its id). -/
structure VResp where
  is_valid : Bool
  promotion_id : Option Nat
  discount_amount : Option ℚ
  error : Option VErr
deriving DecidableEq, Repr

/-- The usage rows of one promotion and user
(the `user_usage_count` query of `validate_promotion`). -/
def userUsages (usages : List UsageR) (promoId userId : Nat) : Nat :=
  (usages.filter (fun x => x.promotion_id == promoId && x.user_id == userId)).length

/-- The discount computed by `validate_promotion` once all checks passed:
percentage promotions take `amount * discount_value / 100` capped at a
truthy `maximum_discount`; fixed-amount promotions take `discount_value`
capped at `amount`; any other type leaves the initial `0`. -/
def promoDiscount (p : PromoR) (amount : ℚ) : ℚ :=
  if p.discount_type == "percentage" then
    let d0 := amount * p.discount_value / 100
    if truthyOQ p.maximum_discount && decide (p.maximum_discount.getD 0 < d0) then
      p.maximum_discount.getD 0
    else d0
  else if p.discount_type == "fixed_amount" then
    if amount < p.discount_value then amount else p.discount_value
  else 0

/-- `POST /api/promotions/validate` (`validate_promotion`);
`now` is `datetime.now()`. -/
def validatePromotion (now : Int) (req : ValidationReq) (db : PrDB) : VResp :=
  match db.promotions.find? (fun p => p.code == req.code) with
  | none => ⟨false, none, none, some VErr.invalidCode⟩
  | some p =>
    if p.status != "active" || decide (now < p.valid_from) || decide (p.valid_until < now) then
      ⟨false, none, none, some VErr.notActive⟩
    else if truthyN req.business_id && p.business_id != req.business_id then
      ⟨false, none, none, some VErr.businessMismatch⟩
    else if truthyOI p.usage_limit && decide (p.usage_limit.getD 0 ≤ p.usage_count) then
      ⟨false, none, none, some VErr.usageLimitReached⟩
    else if (p.per_user_limit != 0) &&
        decide (p.per_user_limit ≤ (userUsages db.usages p.promotion_id req.user_id : Int)) then
      ⟨false, none, none, some VErr.perUserLimitReached⟩
    else if truthyQ p.minimum_amount && decide (req.amount < p.minimum_amount) then
      ⟨false, none, none, some (VErr.minAmount p.minimum_amount)⟩
    else
      ⟨true, some p.promotion_id, some (promoDiscount p req.amount), none⟩

/-- The body of `PromotionUsageBase`. -/
structure UsageReq where
  promotion_id : Nat
  user_id : Nat
  booking_id : Nat
  discount_amount : ℚ
deriving DecidableEq, Repr

/-- The usage row inserted by `apply_promotion`. -/
def appliedUsage (req : UsageReq) (nid : Nat) : UsageR :=
  { usage_id := nid, promotion_id := req.promotion_id
    user_id := req.user_id, booking_id := req.booking_id
    discount_amount := req.discount_amount }

/-- `POST /api/promotions/apply` (`apply_promotion`): checks only that the
promotion and booking exist and that the booking has no usage row yet, then
inserts the usage row and increments `usage_count`. -/
def applyPromotion (req : UsageReq) (db : PrDB) : Except HErr PrDB :=
  match db.promotions.find? (fun p => p.promotion_id == req.promotion_id) with
  | none => .error ⟨404, "Promotion not found"⟩
  | some _ =>
    if !(db.bookings.contains req.booking_id) then
      .error ⟨404, "Booking not found"⟩
    else
      match db.usages.find? (fun x => x.booking_id == req.booking_id) with
      | some _ => .error ⟨400, "A promotion has already been applied to this booking"⟩
      | none =>
        .ok { db with
                usages := db.usages ++
                  [{ usage_id := db.nextUsageId, promotion_id := req.promotion_id
                     user_id := req.user_id, booking_id := req.booking_id
                     discount_amount := req.discount_amount }]
                promotions := updateFirst (fun p => p.promotion_id == req.promotion_id)
                  (fun p => { p with usage_count := p.usage_count + 1 }) db.promotions
                nextUsageId := db.nextUsageId + 1 }

/-! ## Invariants and operation sequences -/

/-- The capacity invariant of claim C1: no slot is booked beyond its
available spots. -/
def slotCapInv (db : BDB) : Prop :=
  ∀ sl ∈ db.slots, sl.booked_spots ≤ sl.available_spots

/-- Slot well-formedness: spot counters within `[0, available_spots]`. -/
def slotsSpotsWF (db : BDB) : Prop :=
  ∀ sl ∈ db.slots, 0 ≤ sl.booked_spots ∧ sl.booked_spots ≤ sl.available_spots

/-- All stored bookings have a nonnegative participant count. -/
def partsNonneg (db : BDB) : Prop :=
  ∀ b ∈ db.bookings, 0 ≤ b.participants

/-- The capacity guard under which `create_booking` preserves the slot
invariant: nonnegative participants, and every slot carrying the request's
`slot_id` has room for them whenever the increment will run.  (The handler
itself checks neither: the availability check may be satisfied by a
different slot of the service.) -/
def capGuard (db : BDB) (req : BookingCreateReq) : Prop :=
  0 ≤ req.participants ∧
  ((truthyN req.service_id && truthyN req.slot_id) = true →
    ∀ sl ∈ db.slots, (some sl.slot_id == req.slot_id) = true →
      sl.booked_spots + req.participants ≤ sl.available_spots)

/-- One non-concurrent booking create (guarded) or cancel operation. -/
inductive CapStep : BDB → BDB → Prop
  | create {db db' : BDB} (u : UserR) (req : BookingCreateReq)
      (hok : createBooking u req db = Except.ok db') (hg : capGuard db req) :
      CapStep db db'
  | cancel {db db' : BDB} (now : Int) (u : UserR) (bid : Nat) (reason : String)
      (hok : cancelBooking now u bid reason db = Except.ok db') :
      CapStep db db'

/-- The no-double-booking invariant of claim C3: no two distinct bookings
on the same (truthy) resource with active statuses have strictly
overlapping `[start, end)` intervals. -/
def noDoubleBooking (db : BDB) : Prop :=
  ∀ b1 ∈ db.bookings, ∀ b2 ∈ db.bookings,
    b1.booking_id ≠ b2.booking_id →
    truthyN b1.resource_id = true →
    b1.resource_id = b2.resource_id →
    b1.status.isActive = true → b2.status.isActive = true →
    ¬(b1.start_datetime < b2.end_datetime ∧ b2.start_datetime < b1.end_datetime)

/-- One non-concurrent booking create, update or cancel operation. -/
inductive BookStep : BDB → BDB → Prop
  | create {db db' : BDB} (u : UserR) (req : BookingCreateReq)
      (hok : createBooking u req db = Except.ok db') : BookStep db db'
  | update {db db' : BDB} (u : UserR) (bid : Nat) (upd : BookingUpdateReq)
      (hok : updateBooking u bid upd db = Except.ok db') : BookStep db db'
  | cancel {db db' : BDB} (now : Int) (u : UserR) (bid : Nat) (reason : String)
      (hok : cancelBooking now u bid reason db = Except.ok db') : BookStep db db'

/-- The property checked by `check_availability` for a service request: a
slot of that service containing the computed interval, `available`, with
enough free spots (claim C2's side condition, stated over the store). -/
def goodSlot (req : BookingCreateReq) (sl : SlotR) : Prop :=
  sl.service_id = req.service_id ∧ sl.start_datetime ≤ reqStart req ∧
    reqEnd req ≤ sl.end_datetime ∧ sl.status = "available" ∧
    req.participants ≤ sl.available_spots - sl.booked_spots

/-- The `BookingUpdate` body that carries only `status = "cancelled"`. -/
def cancelStatusUpd : BookingUpdateReq :=
  ⟨none, none, none, none, none, some BStatus.cancelled, none, none, none⟩

/-- The contribution of one refund row to a payment's non-failed total. -/
def refundContrib (pid : Nat) (r : RefundR) : ℚ :=
  if r.payment_id == pid && !(r.status == "failed") then r.amount else 0

/-- The sum of amounts of a payment's refunds whose status is not
`"failed"` (the quantity bounded by claim C5). -/
def nonFailedRefundSum (rs : List RefundR) (pid : Nat) : ℚ :=
  (rs.map (refundContrib pid)).sum

/-- The refund-ceiling invariant of claim C5. -/
def refundCeiling (db : PDB) : Prop :=
  ∀ p ∈ db.payments, nonFailedRefundSum db.refunds p.payment_id ≤ p.amount

/-- Refund rows are well-formed: status drawn from `RefundStatusEnum` and
a positive amount (the `RefundCreate` schema validator). -/
def refundsWF (db : PDB) : Prop :=
  ∀ r ∈ db.refunds,
    (r.status = "pending" ∨ r.status = "processing" ∨ r.status = "completed" ∨
      r.status = "failed") ∧ 0 ≤ r.amount

/-- Payment ids are unique (the primary key). -/
def paymentIdsNodup (db : PDB) : Prop :=
  (db.payments.map (fun p => p.payment_id)).Nodup

/-- One non-concurrent refund create or update operation, with updates
restricted to the `RefundStatusEnum` values and barred from reviving a
`failed` refund (the guard the source lacks; without it the ceiling falls,
see the counterexample). -/
inductive RefStep : PDB → PDB → Prop
  | create {db db' : PDB} (u : UserR) (req : RefundCreateReq)
      (hok : createRefund u req db = Except.ok db')
      (hamt : 0 ≤ req.amount) : RefStep db db'
  | update {db db' : PDB} (now : Int) (u : UserR) (rid : Nat) (upd : RefundUpdateReq)
      (hok : updateRefund now u rid upd db = Except.ok db')
      (henum : upd.status = none ∨ upd.status = some "pending" ∨
        upd.status = some "processing" ∨ upd.status = some "completed" ∨
        upd.status = some "failed")
      (hnorevive : ∀ r, db.refunds.find? (fun x => x.refund_id == rid) = some r →
        r.status = "failed" → upd.status = none ∨ upd.status = some "failed") :
      RefStep db db'

/-- The rating invariant of claim C6: every business row carries the mean
rating of its approved reviews (0 with none). -/
def ratingInv (db : RDB) : Prop :=
  ∀ biz ∈ db.businesses, biz.rating = bizRatingValue db.reviews biz.business_id

/-- Business ids are unique (the primary key). -/
def bizIdsNodup (db : RDB) : Prop :=
  (db.businesses.map (fun b => b.business_id)).Nodup

/-- One review create, update or delete operation (the three operations
that end in `update_business_rating`; `update_review_status` does not). -/
inductive ReviewStep : RDB → RDB → Prop
  | create {db db' : RDB} (u : UserR) (req : ReviewCreateReq)
      (hok : createReview u req db = Except.ok db') : ReviewStep db db'
  | update {db db' : RDB} (u : UserR) (rid : Nat) (newRating : Int)
      (hok : updateReview u rid newRating db = Except.ok db') : ReviewStep db db'
  | delete {db db' : RDB} (u : UserR) (rid : Nat)
      (hok : deleteReview u rid db = Except.ok db') : ReviewStep db db'

/-- The usage rows of one promotion. -/
def promoUsages (usages : List UsageR) (promoId : Nat) : Nat :=
  (usages.filter (fun x => x.promotion_id == promoId)).length

/-- Promotion well-formedness: unique promotion ids (primary key) and a
`usage_count` counter in sync with the stored usage rows. -/
def promoWF (db : PrDB) : Prop :=
  (db.promotions.map (fun p => p.promotion_id)).Nodup ∧
  ∀ p ∈ db.promotions, p.usage_count = (promoUsages db.usages p.promotion_id : Int)

/-- The redemption-limit invariant of claim C7: stored applications stay
within a truthy `usage_limit` globally and within a truthy
`per_user_limit` per user. -/
def promoLimitInv (db : PrDB) : Prop :=
  ∀ p ∈ db.promotions,
    (∀ l, p.usage_limit = some l → l ≠ 0 →
      (promoUsages db.usages p.promotion_id : Int) ≤ l) ∧
    (p.per_user_limit ≠ 0 →
      ∀ uid, (userUsages db.usages p.promotion_id uid : Int) ≤ p.per_user_limit)

/-- One `apply_promotion` preceded (in the same state) by a successful
`validate_promotion` for the same promotion and user — the workflow the
spec assumes; `apply_promotion` itself checks no limits, and without this
guard both limits fall (see the counterexample). -/
inductive PromoStep : PrDB → PrDB → Prop
  | apply {db db' : PrDB} (req : UsageReq) (now : Int) (vreq : ValidationReq) (p : PromoR)
      (hok : applyPromotion req db = Except.ok db')
      (hbyid : db.promotions.find? (fun x => x.promotion_id == req.promotion_id) = some p)
      (hbycode : db.promotions.find? (fun x => x.code == vreq.code) = some p)
      (huser : vreq.user_id = req.user_id)
      (hvalid : (validatePromotion now vreq db).is_valid = true) : PromoStep db db'

/-! ## Concrete stores and requests used by witnesses and counterexamples -/

/-- The state delivered by a successful handler run (`dflt` is returned in
the error case; the accompanying theorems always also assert success). -/
def okState (dflt : α) : Except HErr α → α
  | .ok d => d
  | .error _ => dflt

/-- A caller owning no business and holding no role. -/
def plainUser : UserR := ⟨5, [], []⟩

/-- An admin caller. -/
def adminUser : UserR := ⟨9, [], ["admin"]⟩

/-- C1: two slots of service 1; slot 2 is full (1 of 1 spots). -/
def c1db : BDB :=
  { businesses := [1]
    slots := [⟨1, some 1, 0, 100000, 10, 0, "available"⟩,
              ⟨2, some 1, 0, 100000, 1, 1, "available"⟩]
    bookings := [], participants := [], history := []
    nextBookingId := 1, nextParticipantId := 1 }

/-- C1: a booking of service 1 targeting the full slot 2: the availability
check is satisfied by slot 1, the increment hits slot 2. -/
def c1req : BookingCreateReq :=
  { business_id := 1, service_id := some 1, resource_id := none, slot_id := some 2
    booking_date := 0, start_time := 100, end_time := 200, participants := 2
    total_amount := 50, special_requests := none }

/-- C1: the store after the overbooking create. -/
def c1after : BDB := okState c1db (createBooking plainUser c1req c1db)

/-- C2/C3/C10 witness store: one service-1 slot with room. -/
def w2db : BDB :=
  { businesses := [1]
    slots := [⟨1, some 1, 0, 100000, 5, 0, "available"⟩]
    bookings := [], participants := [], history := []
    nextBookingId := 1, nextParticipantId := 1 }

/-- A well-formed booking request against `w2db`. -/
def w2req : BookingCreateReq :=
  { business_id := 1, service_id := some 1, resource_id := none, slot_id := some 1
    booking_date := 0, start_time := 60, end_time := 120, participants := 1
    total_amount := 10, special_requests := none }

/-- The store after the `w2req` create. -/
def w2after : BDB := okState w2db (createBooking plainUser w2req w2db)

/-- C2 witness: a business with no slots at all. -/
def w2empty : BDB :=
  { businesses := [1], slots := [], bookings := [], participants := [], history := []
    nextBookingId := 1, nextParticipantId := 1 }

/-- C4/C10 witness: a completed (terminal) booking of `plainUser`. -/
def c4booking : BookingR :=
  { booking_id := 1, user_id := 5, business_id := 1, service_id := none
    resource_id := none, slot_id := none, booking_date := 0, start_time := 0
    end_time := 60, start_datetime := 0, end_datetime := 60, participants := 1
    total_amount := 10, final_amount := 10, status := BStatus.completed
    payment_status := "pending", special_requests := none, internal_notes := none
    cancelled_at := none, cancelled_by := none, cancellation_reason := none }

/-- C4 witness store: the terminal booking plus one participant row. -/
def c4db : BDB :=
  { businesses := [1], slots := [], bookings := [c4booking]
    participants := [⟨1, 1, "A", "B", none, none, none, none⟩], history := []
    nextBookingId := 2, nextParticipantId := 2 }

/-- C10 witness: a pending booking of service 1 holding slot 3. -/
def c10booking : BookingR :=
  { booking_id := 1, user_id := 5, business_id := 1, service_id := some 1
    resource_id := none, slot_id := some 3, booking_date := 0, start_time := 0
    end_time := 60, start_datetime := 0, end_datetime := 60, participants := 2
    total_amount := 10, final_amount := 10, status := BStatus.pending
    payment_status := "pending", special_requests := none, internal_notes := none
    cancelled_at := none, cancelled_by := none, cancellation_reason := none }

/-- C10 witness store. -/
def c10db : BDB :=
  { businesses := [1], slots := [⟨3, some 1, 0, 100000, 5, 2, "available"⟩]
    bookings := [c10booking], participants := [], history := []
    nextBookingId := 2, nextParticipantId := 1 }

/-- C10 witness: `c10db` after `update_booking` with only `status`
set to `cancelled`. -/
def c10upd : BDB := okState c10db (updateBooking plainUser 1 cancelStatusUpd c10db)

/-- C10 witness: `c10db` after the dedicated `cancel_booking`. -/
def c10cancel : BDB := okState c10db (cancelBooking 77 plainUser 1 "why" c10db)

/-- C5/C8: one booking with `final_amount = 100`. -/
def c5db : PDB :=
  { methods := []
    bookings := [⟨1, 1, 1, 100, "paid"⟩]
    payments := [⟨1, 1, 100, "completed", none⟩]
    refunds := []
    nextPaymentId := 2, nextRefundId := 1 }

/-- C5: `c5db` after a refund of 60 (chain: refund 60, fail it, refund 100
in full, then revive refund 1). -/
def c5s1 : PDB :=
  { methods := []
    bookings := [⟨1, 1, 1, 100, "paid"⟩]
    payments := [⟨1, 1, 100, "completed", none⟩]
    refunds := [⟨1, 1, 60, "pending", none⟩]
    nextPaymentId := 2, nextRefundId := 2 }

/-- C5: second state of the chain (refund 1 marked `failed`). -/
def c5s2 : PDB := { c5s1 with refunds := [⟨1, 1, 60, "failed", none⟩] }

/-- C5: third state of the chain (a full 100 refund passes the ceiling
check because the failed refund is not counted, and flips the payment to
`refunded`). -/
def c5s3 : PDB :=
  { methods := []
    bookings := [⟨1, 1, 1, 100, "refunded"⟩]
    payments := [⟨1, 1, 100, "refunded", none⟩]
    refunds := [⟨1, 1, 60, "failed", none⟩, ⟨2, 1, 100, "pending", none⟩]
    nextPaymentId := 2, nextRefundId := 3 }

/-- C5: final state of the chain, refund 1 revived to `pending`
(non-failed refunds sum to 160 > 100). -/
def c5s4 : PDB :=
  { c5s3 with refunds := [⟨1, 1, 60, "pending", none⟩, ⟨2, 1, 100, "pending", none⟩] }

/-- C8: a booking with `final_amount = 100` and no payments yet. -/
def c8db : PDB :=
  { methods := [], bookings := [⟨1, 1, 1, 100, "pending"⟩], payments := [], refunds := []
    nextPaymentId := 1, nextRefundId := 1 }

/-- C8: the store after paying the full 100 — the inserted payment is
`pending` and the booking's `payment_status` stays `pending`. -/
def c8after : PDB :=
  { methods := [], bookings := [⟨1, 1, 1, 100, "pending"⟩]
    payments := [⟨1, 1, 100, "pending", none⟩], refunds := []
    nextPaymentId := 2, nextRefundId := 1 }

/-- C6: a business at rating 0 with one pending 5-star review. -/
def c6db : RDB :=
  { businesses := [⟨1, 0⟩]
    bookings := [⟨1, 1, BStatus.completed⟩]
    reviews := [⟨1, 1, 1, 1, 5, "pending"⟩]
    nextReviewId := 2 }

/-- C6: the owner of business 1. -/
def c6owner : UserR := ⟨2, [1], []⟩

/-- C6: the store after approving the review — the business rating is not
recomputed and stays 0 while the approved review carries rating 5. -/
def c6after : RDB :=
  { businesses := [⟨1, 0⟩]
    bookings := [⟨1, 1, BStatus.completed⟩]
    reviews := [⟨1, 1, 1, 1, 5, "approved"⟩]
    nextReviewId := 2 }

/-- C6 witness: a completed booking of `plainUser` to review. -/
def w6db : RDB :=
  { businesses := [⟨1, 0⟩]
    bookings := [⟨1, 5, BStatus.completed⟩]
    reviews := [], nextReviewId := 1 }

/-- C6 witness: the store after `plainUser` reviews booking 1 — the new
review enters as `pending`, so the recomputed mean over approved reviews
is still 0 and the invariant holds. -/
def w6after : RDB :=
  { businesses := [⟨1, 0⟩]
    bookings := [⟨1, 5, BStatus.completed⟩]
    reviews := [⟨1, 1, 5, 1, 4, "pending"⟩]
    nextReviewId := 2 }

/-- C7: a promotion with `usage_limit = 1` and `per_user_limit = 1`, and
two bookings to attach usages to. -/
def c7db : PrDB :=
  { promotions := [⟨1, none, "PROMO1", "percentage", 10, 0, none, some 1, 0, 1, 0, 100, "active"⟩]
    usages := [], bookings := [1, 2], nextUsageId := 1 }

/-- C7: the store after user 7 applies the promotion to booking 1. -/
def c7s1 : PrDB :=
  { promotions := [⟨1, none, "PROMO1", "percentage", 10, 0, none, some 1, 1, 1, 0, 100, "active"⟩]
    usages := [⟨1, 1, 7, 1, 5⟩], bookings := [1, 2], nextUsageId := 2 }

/-- C7: the store after user 7 applies the promotion again, to booking 2
(usage 2 of a limit of 1, and the user's second against a per-user limit
of 1). -/
def c7s2 : PrDB :=
  { promotions := [⟨1, none, "PROMO1", "percentage", 10, 0, none, some 1, 2, 1, 0, 100, "active"⟩]
    usages := [⟨1, 1, 7, 1, 5⟩, ⟨2, 1, 7, 2, 5⟩], bookings := [1, 2], nextUsageId := 3 }

/-- C9: the `SAVE10` promotion of the spec scenario (10% off, minimum
amount 20.00) plus a percentage promotion with no minimum. -/
def save10db : PrDB :=
  { promotions := [⟨1, none, "SAVE10", "percentage", 10, 20, none, none, 0, 1, 0, 1000000, "active"⟩,
                   ⟨2, none, "NOMIN", "percentage", 10, 0, none, none, 0, 1, 0, 1000000, "active"⟩]
    usages := [], bookings := [], nextUsageId := 1 }

/-! ## Decidability instances (so concrete runs can be checked by `decide`) -/

instance [DecidableEq ε] [DecidableEq α] : DecidableEq (Except ε α) := fun a b =>
  match a, b with
  | .ok x, .ok y =>
    if h : x = y then .isTrue (by rw [h]) else .isFalse (fun hh => h (Except.ok.inj hh))
  | .error x, .error y =>
    if h : x = y then .isTrue (by rw [h]) else .isFalse (fun hh => h (Except.error.inj hh))
  | .ok _, .error _ => .isFalse (fun hh => Except.noConfusion hh)
  | .error _, .ok _ => .isFalse (fun hh => Except.noConfusion hh)

instance (db : BDB) : Decidable (slotCapInv db) := by
  unfold slotCapInv; infer_instance

instance (db : BDB) : Decidable (slotsSpotsWF db) := by
  unfold slotsSpotsWF; infer_instance

instance (db : BDB) : Decidable (partsNonneg db) := by
  unfold partsNonneg; infer_instance

instance (db : BDB) (req : BookingCreateReq) : Decidable (capGuard db req) := by
  unfold capGuard; infer_instance

instance (db : BDB) : Decidable (noDoubleBooking db) := by
  unfold noDoubleBooking; infer_instance

instance (req : BookingCreateReq) (sl : SlotR) : Decidable (goodSlot req sl) := by
  unfold goodSlot; infer_instance

instance (db : PDB) : Decidable (refundCeiling db) := by
  unfold refundCeiling nonFailedRefundSum; infer_instance

instance (db : PDB) : Decidable (refundsWF db) := by
  unfold refundsWF; infer_instance

instance (db : PDB) : Decidable (paymentIdsNodup db) := by
  unfold paymentIdsNodup; infer_instance

instance (db : RDB) : Decidable (ratingInv db) := by
  unfold ratingInv; infer_instance

instance (db : RDB) : Decidable (bizIdsNodup db) := by
  unfold bizIdsNodup; infer_instance

instance (db : PrDB) : Decidable (promoWF db) := by
  unfold promoWF; infer_instance

/-! ## General lemmas about `updateFirst`, `find?` and `eraseP` -/

theorem updateFirst_nil (p : α → Bool) (f : α → α) : updateFirst p f [] = [] := rfl

theorem updateFirst_cons (p : α → Bool) (f : α → α) (x : α) (xs : List α) :
    updateFirst p f (x :: xs) = if p x then f x :: xs else x :: updateFirst p f xs := rfl

theorem mem_updateFirst {p : α → Bool} {f : α → α} {l : List α} {b : α}
    (hb : b ∈ updateFirst p f l) : b ∈ l ∨ ∃ a, a ∈ l ∧ p a = true ∧ b = f a := by
  induction l with
  | nil => simp [updateFirst] at hb
  | cons x xs ih =>
    rw [updateFirst_cons] at hb
    by_cases hx : p x = true
    · rw [if_pos hx] at hb
      rcases List.mem_cons.mp hb with h | h
      · exact Or.inr ⟨x, List.mem_cons_self x xs, hx, h⟩
      · exact Or.inl (List.mem_cons_of_mem _ h)
    · rw [if_neg hx] at hb
      rcases List.mem_cons.mp hb with h | h
      · exact Or.inl (h ▸ List.mem_cons_self x xs)
      · rcases ih h with h2 | ⟨a, ha, hpa, hba⟩
        · exact Or.inl (List.mem_cons_of_mem _ h2)
        · exact Or.inr ⟨a, List.mem_cons_of_mem _ ha, hpa, hba⟩

theorem updateFirst_of_find? {p : α → Bool} {l : List α} {a : α}
    (h : l.find? p = some a) (f : α → α) :
    ∃ l₁ l₂, l = l₁ ++ a :: l₂ ∧ (∀ b ∈ l₁, p b = false) ∧
      updateFirst p f l = l₁ ++ f a :: l₂ := by
  induction l with
  | nil => simp at h
  | cons x xs ih =>
    by_cases hx : p x = true
    · rw [List.find?_cons_of_pos _ hx] at h
      obtain rfl : x = a := Option.some.inj h
      exact ⟨[], xs, by simp, by simp, by rw [updateFirst_cons, if_pos hx]; simp⟩
    · rw [List.find?_cons_of_neg _ hx] at h
      rcases ih h with ⟨l₁, l₂, hl, hl₁, hupd⟩
      refine ⟨x :: l₁, l₂, by simp [hl], ?_, ?_⟩
      · intro b hb
        rcases List.mem_cons.mp hb with rfl | hb2
        · exact Bool.eq_false_iff.mpr hx
        · exact hl₁ b hb2
      · rw [updateFirst_cons, if_neg hx, hupd]; simp

theorem updateFirst_of_find?_none {p : α → Bool} {l : List α}
    (h : l.find? p = none) (f : α → α) : updateFirst p f l = l := by
  induction l with
  | nil => rfl
  | cons x xs ih =>
    rw [List.find?_cons] at h
    rw [updateFirst_cons]
    split at h
    · exact absurd h (by simp)
    · rename_i hx
      rw [if_neg (by simp [hx]), ih h]

theorem find?_updateFirst (p : α → Bool) (f : α → α)
    (hf : ∀ a, p a = true → p (f a) = true) (l : List α) :
    (updateFirst p f l).find? p = (l.find? p).map f := by
  induction l with
  | nil => simp [updateFirst]
  | cons x xs ih =>
    by_cases hx : p x = true
    · rw [updateFirst_cons, if_pos hx, List.find?_cons_of_pos _ (hf x hx),
        List.find?_cons_of_pos _ hx]
      rfl
    · rw [updateFirst_cons, if_neg hx,
        List.find?_cons_of_neg _ hx,
        List.find?_cons_of_neg _ hx, ih]

theorem map_updateFirst (p : α → Bool) (f : α → α) (g : α → β)
    (hg : ∀ a, p a = true → g (f a) = g a) (l : List α) :
    (updateFirst p f l).map g = l.map g := by
  induction l with
  | nil => rfl
  | cons x xs ih =>
    by_cases hx : p x = true
    · rw [updateFirst_cons, if_pos hx]; simp [hg x hx]
    · rw [updateFirst_cons, if_neg hx]; simp [ih]

theorem sum_map_updateFirst_le {p : α → Bool} {f : α → α} {g : α → ℚ} {l : List α}
    (h : ∀ a, l.find? p = some a → g (f a) ≤ g a) :
    ((updateFirst p f l).map g).sum ≤ (l.map g).sum := by
  induction l with
  | nil => simp [updateFirst]
  | cons x xs ih =>
    by_cases hx : p x = true
    · rw [updateFirst_cons, if_pos hx]
      simp only [List.map_cons, List.sum_cons]
      have := h x (List.find?_cons_of_pos _ hx)
      linarith
    · rw [updateFirst_cons, if_neg hx]
      simp only [List.map_cons, List.sum_cons]
      have := ih (fun a ha => h a (by rw [List.find?_cons_of_neg _ hx]; exact ha))
      linarith

theorem eraseP_of_find? {p : α → Bool} {l : List α} {a : α}
    (h : l.find? p = some a) :
    ∃ l₁ l₂, l = l₁ ++ a :: l₂ ∧ (∀ b ∈ l₁, p b = false) ∧ l.eraseP p = l₁ ++ l₂ := by
  induction l with
  | nil => simp at h
  | cons x xs ih =>
    by_cases hx : p x = true
    · rw [List.find?_cons_of_pos _ hx] at h
      obtain rfl : x = a := Option.some.inj h
      exact ⟨[], xs, by simp, by simp, by rw [List.eraseP_cons_of_pos hx]; simp⟩
    · rw [List.find?_cons_of_neg _ hx] at h
      rcases ih h with ⟨l₁, l₂, hl, hl₁, herase⟩
      refine ⟨x :: l₁, l₂, by simp [hl], ?_, ?_⟩
      · intro b hb
        rcases List.mem_cons.mp hb with rfl | hb2
        · exact Bool.eq_false_iff.mpr hx
        · exact hl₁ b hb2
      · rw [List.eraseP_cons_of_neg (by simp [hx]), herase]; simp

/-! ## Extraction lemmas for the booking handlers -/

theorem createBooking_ok_iff {u : UserR} {req : BookingCreateReq} {db db' : BDB} :
    createBooking u req db = Except.ok db' ↔
      db.businesses.contains req.business_id = true ∧
      (checkAvailability db req.service_id req.resource_id (reqStart req) (reqEnd req)
        req.participants).1 = true ∧
      db' = createdBDB u req db := by
  unfold createBooking
  by_cases h1 : db.businesses.contains req.business_id
  · rw [if_neg (by simpa using h1)]
    by_cases h2 : (checkAvailability db req.service_id req.resource_id (reqStart req)
        (reqEnd req) req.participants).1
    · rw [if_neg (by simp [h2])]
      constructor
      · intro h
        exact ⟨h1, h2, (Except.ok.inj h).symm⟩
      · rintro ⟨-, -, rfl⟩
        rfl
    · simp only [Bool.not_eq_true] at h2
      rw [if_pos (by simp [h2])]
      constructor
      · intro h
        exact absurd h (by simp)
      · rintro ⟨-, hc, -⟩
        rw [h2] at hc
        exact absurd hc (by simp)
  · simp only [Bool.not_eq_true] at h1
    rw [if_pos (by simpa using h1)]
    constructor
    · intro h
      exact absurd h (by simp)
    · rintro ⟨hc, -, -⟩
      rw [h1] at hc
      exact absurd hc (by simp)

theorem updateBooking_ok_iff {u : UserR} {bid : Nat} {upd : BookingUpdateReq}
    {db db' : BDB} :
    updateBooking u bid upd db = Except.ok db' ↔
      ∃ b, findBooking db bid = some b ∧ authorizedForBooking u b = true ∧
        b.status.isTerminal = false ∧
        (dtChanged upd = true →
          (checkAvailability db b.service_id b.resource_id (updStart b upd) (updEnd b upd)
            (upd.participants.getD b.participants)).1 = true) ∧
        db' = updatedBDB u bid b upd db := by
  unfold updateBooking
  split
  · rename_i hfb
    simp [hfb]
  · rename_i b hfb
    rw [hfb]
    constructor
    · intro h
      by_cases h1 : authorizedForBooking u b
      · rw [if_neg (by simp [h1])] at h
        by_cases h2 : b.status.isTerminal
        · rw [if_pos h2] at h
          exact absurd h (by simp)
        · simp only [Bool.not_eq_true] at h2
          rw [if_neg (by simp [h2])] at h
          by_cases h3 : (dtChanged upd = true ∧
              (checkAvailability db b.service_id b.resource_id (updStart b upd)
                (updEnd b upd) (upd.participants.getD b.participants)).1 = false)
          · rw [if_pos (by simp [h3.1, h3.2])] at h
            exact absurd h (by simp)
          · have h4 : ¬((dtChanged upd && !(checkAvailability db b.service_id b.resource_id
                (updStart b upd) (updEnd b upd)
                (upd.participants.getD b.participants)).1) = true) := by
              simp only [Bool.and_eq_true, Bool.not_eq_true', not_and]
              intro hd hc
              exact h3 ⟨hd, hc⟩
            rw [if_neg h4] at h
            refine ⟨b, rfl, h1 ▸ rfl, h2, ?_, (Except.ok.inj h).symm⟩
            intro hd
            by_contra hc
            simp only [Bool.not_eq_true] at hc
            exact h3 ⟨hd, hc⟩
      · simp only [Bool.not_eq_true] at h1
        rw [if_pos (by simp [h1])] at h
        exact absurd h (by simp)
    · rintro ⟨b2, hb2, h1, h2, h3, rfl⟩
      obtain rfl : b = b2 := Option.some.inj hb2
      have h4 : ¬((dtChanged upd &&
          !(checkAvailability db b.service_id b.resource_id (updStart b upd) (updEnd b upd)
            (upd.participants.getD b.participants)).1) = true) := by
        simp only [Bool.and_eq_true, Bool.not_eq_true', not_and]
        intro hd
        rw [h3 hd]
        simp
      rw [if_neg (by simp [h1]), if_neg (by simp [h2]), if_neg h4]

theorem cancelBooking_ok_iff {now : Int} {u : UserR} {bid : Nat} {reason : String}
    {db db' : BDB} :
    cancelBooking now u bid reason db = Except.ok db' ↔
      ∃ b, findBooking db bid = some b ∧ authorizedForBooking u b = true ∧
        b.status.isTerminal = false ∧ db' = cancelledBDB now u bid b reason db := by
  unfold cancelBooking
  split
  · rename_i hfb
    simp [hfb]
  · rename_i b hfb
    rw [hfb]
    constructor
    · intro h
      by_cases h1 : authorizedForBooking u b
      · rw [if_neg (by simp [h1])] at h
        by_cases h2 : b.status.isTerminal
        · rw [if_pos h2] at h
          exact absurd h (by simp)
        · simp only [Bool.not_eq_true] at h2
          rw [if_neg (by simp [h2])] at h
          exact ⟨b, rfl, h1 ▸ rfl, h2, (Except.ok.inj h).symm⟩
      · simp only [Bool.not_eq_true] at h1
        rw [if_pos (by simp [h1])] at h
        exact absurd h (by simp)
    · rintro ⟨b2, hb2, h1, h2, rfl⟩
      obtain rfl : b = b2 := Option.some.inj hb2
      rw [if_neg (by simp [h1]), if_neg (by simp [h2])]

/-! ## Consequences of a passing availability check -/

theorem BStatus.active_of_not_terminal {s : BStatus} (h : s.isTerminal = false) :
    s.isActive = true := by
  cases s <;> simp_all [BStatus.isTerminal, BStatus.isActive]

theorem no_conflict_of_check {db : BDB} {sid rid : Option Nat} {s e : Int} {parts : Int}
    (hchk : (checkAvailability db sid rid s e parts).1 = true)
    (htr : truthyN rid = true) {b : BookingR} (hb : b ∈ db.bookings)
    (hres : b.resource_id = rid) (hact : b.status.isActive = true)
    (h1 : b.start_datetime < e) (h2 : s < b.end_datetime) : False := by
  unfold checkAvailability at hchk
  split_ifs at hchk with hA hB
  apply hB
  have hmem : b ∈ db.bookings.filter (conflictsWith rid s e) :=
    List.mem_filter.mpr ⟨hb, by simp [conflictsWith, hres, hact, h1, h2]⟩
  have hlen : 0 < (db.bookings.filter (conflictsWith rid s e)).length :=
    List.length_pos_of_mem hmem
  simp [htr, hlen]

theorem slot_of_check {db : BDB} {sid rid : Option Nat} {s e : Int} {parts : Int}
    (hchk : (checkAvailability db sid rid s e parts).1 = true)
    (htr : truthyN sid = true) :
    ∃ sl, db.slots.find? (slotMatches sid s e parts) = some sl := by
  unfold checkAvailability at hchk
  split_ifs at hchk with hA hB
  rw [← Option.isSome_iff_exists]
  by_contra hns
  exact hA (by simp [htr, Option.not_isSome_iff_eq_none.mp hns])

/-! ## Claim C3: the no-double-booking invariant -/

theorem noDouble_step {db db' : BDB} (hst : BookStep db db')
    (hinv : noDoubleBooking db) : noDoubleBooking db' := by
  cases hst with
  | create u req hok =>
    rcases createBooking_ok_iff.mp hok with ⟨-, hchk, rfl⟩
    intro b1 hb1 b2 hb2 hid htr hres ha1 ha2 hov
    rcases List.mem_append.mp hb1 with hb1o | hb1n
    · rcases List.mem_append.mp hb2 with hb2o | hb2n
      · exact hinv b1 hb1o b2 hb2o hid htr hres ha1 ha2 hov
      · -- b2 is the new booking
        obtain rfl : b2 = newBooking u req db.nextBookingId := List.mem_singleton.mp hb2n
        have hres1 : b1.resource_id = req.resource_id := hres
        have htrq : truthyN req.resource_id = true := by rw [← hres1]; exact htr
        exact no_conflict_of_check hchk htrq hb1o hres1 ha1 hov.1 hov.2
    · obtain rfl : b1 = newBooking u req db.nextBookingId := List.mem_singleton.mp hb1n
      rcases List.mem_append.mp hb2 with hb2o | hb2n
      · have hres2 : b2.resource_id = req.resource_id := hres.symm
        exact no_conflict_of_check hchk htr hb2o hres2 ha2 hov.2 hov.1
      · obtain rfl : b2 = newBooking u req db.nextBookingId := List.mem_singleton.mp hb2n
        exact hid rfl
  | update u bid upd hok =>
    rcases updateBooking_ok_iff.mp hok with ⟨b, hfb, -, hterm, hchk, rfl⟩
    have hbmem : b ∈ db.bookings := List.mem_of_find?_eq_some hfb
    have hbid : b.booking_id = bid := by
      have := List.find?_some hfb
      simpa using this
    have hbact : b.status.isActive = true := BStatus.active_of_not_terminal hterm
    have hresU : (applyBookingUpdate b upd).resource_id = b.resource_id := rfl
    have hidU : (applyBookingUpdate b upd).booking_id = b.booking_id := rfl
    intro b1 hb1 b2 hb2 hid htr hres ha1 ha2 hov
    rcases mem_updateFirst hb1 with hb1o | ⟨a1, ha1m, hpa1, rfl⟩
    · rcases mem_updateFirst hb2 with hb2o | ⟨a2, ha2m, hpa2, rfl⟩
      · exact hinv b1 hb1o b2 hb2o hid htr hres ha1 ha2 hov
      · -- b2 is the updated row
        have hres1 : b1.resource_id = b.resource_id := hres.trans hresU
        have htr1 : truthyN b.resource_id = true := by rw [← hres1]; exact htr
        by_cases hdt : dtChanged upd = true
        · have hse : (applyBookingUpdate b upd).start_datetime = updStart b upd ∧
              (applyBookingUpdate b upd).end_datetime = updEnd b upd := by
            constructor <;> simp [applyBookingUpdate, hdt]
          exact no_conflict_of_check (hchk hdt) htr1 hb1o hres1 ha1
            (hse.2 ▸ hov.1) (hse.1 ▸ hov.2)
        · simp only [Bool.not_eq_true] at hdt
          have hse : (applyBookingUpdate b upd).start_datetime = b.start_datetime ∧
              (applyBookingUpdate b upd).end_datetime = b.end_datetime := by
            constructor <;> simp [applyBookingUpdate, hdt]
          exact hinv b1 hb1o b hbmem (fun hh => hid (hh.trans hidU.symm)) htr hres1
            ha1 hbact ⟨hse.2 ▸ hov.1, hse.1 ▸ hov.2⟩
    · rcases mem_updateFirst hb2 with hb2o | ⟨a2, ha2m, hpa2, rfl⟩
      · -- b1 is the updated row
        have htr1 : truthyN b.resource_id = true := by rw [← hresU]; exact htr
        have hres2 : b2.resource_id = b.resource_id := hres.symm.trans hresU
        by_cases hdt : dtChanged upd = true
        · have hse : (applyBookingUpdate b upd).start_datetime = updStart b upd ∧
              (applyBookingUpdate b upd).end_datetime = updEnd b upd := by
            constructor <;> simp [applyBookingUpdate, hdt]
          exact no_conflict_of_check (hchk hdt) htr1 hb2o hres2 ha2
            (hse.2 ▸ hov.2) (hse.1 ▸ hov.1)
        · simp only [Bool.not_eq_true] at hdt
          have hse : (applyBookingUpdate b upd).start_datetime = b.start_datetime ∧
              (applyBookingUpdate b upd).end_datetime = b.end_datetime := by
            constructor <;> simp [applyBookingUpdate, hdt]
          exact hinv b hbmem b2 hb2o (fun hh => hid ((hidU.trans hh).symm ▸ rfl))
            htr1 hres2.symm hbact ha2 ⟨hse.1 ▸ hov.1, hse.2 ▸ hov.2⟩
      · -- both are the updated row: same id
        exact hid rfl
  | cancel now u bid reason hok =>
    rcases cancelBooking_ok_iff.mp hok with ⟨b, hfb, -, hterm, rfl⟩
    intro b1 hb1 b2 hb2 hid htr hres ha1 ha2 hov
    rcases mem_updateFirst hb1 with hb1o | ⟨a1, ha1m, hpa1, rfl⟩
    · rcases mem_updateFirst hb2 with hb2o | ⟨a2, ha2m, hpa2, rfl⟩
      · exact hinv b1 hb1o b2 hb2o hid htr hres ha1 ha2 hov
      · simp [cancelledBooking, BStatus.isActive] at ha2
    · simp [cancelledBooking, BStatus.isActive] at ha1

/-- C3: no reachable state produced by any sequence of booking create,
update and cancel operations contains two distinct bookings on the same
resource with overlapping `[start, end)` intervals while both hold an
active (`pending`/`confirmed`/`in_progress`) status: `create_booking`
rejects conflicting creations and date/time-changing `update_booking`
re-runs the same conflict check, so the invariant is preserved from any
state satisfying it. -/
theorem no_double_booking_invariant (db db' : BDB)
    (hinv : noDoubleBooking db)
    (hsteps : Relation.ReflTransGen BookStep db db') : noDoubleBooking db' := by
  induction hsteps with
  | refl => exact hinv
  | tail _ hstep ih => exact noDouble_step hstep ih

/-- C3 witness: the invariant holds in a concrete store and is preserved
across an actual successful booking creation. -/
theorem no_double_booking_invariant_witness :
    noDoubleBooking w2db ∧ noDoubleBooking w2after :=
  ⟨by decide, no_double_booking_invariant w2db w2after (by decide)
    (Relation.ReflTransGen.single (BookStep.create plainUser w2req (by decide)))⟩

/-! ## Claim C1: slot capacity -/

theorem capStep_preserve {db db' : BDB} (hst : CapStep db db')
    (hWF : slotsSpotsWF db) (hparts : partsNonneg db) :
    slotsSpotsWF db' ∧ partsNonneg db' := by
  cases hst with
  | create u req hok hg =>
    rcases createBooking_ok_iff.mp hok with ⟨-, -, rfl⟩
    constructor
    · intro sl hsl
      have hsl2 : sl ∈ bookedSlots req db.slots := hsl
      unfold bookedSlots at hsl2
      by_cases hc : (truthyN req.service_id && truthyN req.slot_id) = true
      · rw [if_pos hc] at hsl2
        rcases mem_updateFirst hsl2 with hold | ⟨a, ham, hpa, rfl⟩
        · exact hWF sl hold
        · have haWF := hWF a ham
          have hb := hg.2 hc a ham hpa
          have hp := hg.1
          constructor
          · show 0 ≤ a.booked_spots + req.participants
            linarith [haWF.1]
          · exact hb
      · rw [if_neg hc] at hsl2
        exact hWF sl hsl2
    · intro b hb
      have hb2 : b ∈ db.bookings ++ [newBooking u req db.nextBookingId] := hb
      rcases List.mem_append.mp hb2 with hold | hnew
      · exact hparts b hold
      · obtain rfl : b = newBooking u req db.nextBookingId := List.mem_singleton.mp hnew
        exact hg.1
  | cancel now u bid reason hok =>
    rcases cancelBooking_ok_iff.mp hok with ⟨b, hfb, -, -, rfl⟩
    have hbmem : b ∈ db.bookings := List.mem_of_find?_eq_some hfb
    have hbp : 0 ≤ b.participants := hparts b hbmem
    constructor
    · intro sl hsl
      have hsl2 : sl ∈ unbookedSlots b db.slots := hsl
      unfold unbookedSlots at hsl2
      by_cases hc : (truthyN b.service_id && truthyN b.slot_id) = true
      · rw [if_pos hc] at hsl2
        rcases mem_updateFirst hsl2 with hold | ⟨a, ham, hpa, rfl⟩
        · exact hWF sl hold
        · have haWF := hWF a ham
          constructor
          · show 0 ≤ (if a.booked_spots - b.participants < 0 then (0 : Int)
              else a.booked_spots - b.participants)
            split
            · exact le_refl 0
            · rename_i hpos
              linarith
          · show (if a.booked_spots - b.participants < 0 then (0 : Int)
              else a.booked_spots - b.participants) ≤ a.available_spots
            split
            · linarith [haWF.1, haWF.2]
            · linarith [haWF.2, hbp]
      · rw [if_neg hc] at hsl2
        exact hWF sl hsl2
    · intro bb hbb
      have hbb2 : bb ∈ updateFirst (fun x => x.booking_id == bid)
          (fun _ => cancelledBooking now u b reason) db.bookings := hbb
      rcases mem_updateFirst hbb2 with hold | ⟨a, ham, hpa, rfl⟩
      · exact hparts bb hold
      · exact hbp

/-- C1 (amended): starting from well-formed spot counters, `booked_spots`
stays within `available_spots` across any sequence of cancels and of
creates whose targeted slot (when `service_id` and `slot_id` are both
truthy) itself has room for the nonnegative participant count; and a
successful create carrying truthy `service_id` and `slot_id` increments
the targeted slot's `booked_spots` by exactly the participant count.  (The
unguarded handler can exceed capacity: the availability check may be
satisfied by a different slot than the one identified by `slot_id`, see
the counterexample.) -/
theorem slot_capacity_guarded :
    (∀ db db' : BDB, slotsSpotsWF db → partsNonneg db →
      Relation.ReflTransGen CapStep db db' →
      ∀ sl ∈ db'.slots, sl.booked_spots ≤ sl.available_spots) ∧
    (∀ (u : UserR) (req : BookingCreateReq) (db db' : BDB) (sl : SlotR),
      createBooking u req db = Except.ok db' →
      (truthyN req.service_id && truthyN req.slot_id) = true →
      db.slots.find? (fun s => some s.slot_id == req.slot_id) = some sl →
      db'.slots.find? (fun s => some s.slot_id == req.slot_id) =
        some { sl with booked_spots := sl.booked_spots + req.participants }) := by
  constructor
  · intro db db' hWF hparts hsteps
    suffices h : slotsSpotsWF db' ∧ partsNonneg db' by
      intro sl hsl
      exact (h.1 sl hsl).2
    induction hsteps with
    | refl => exact ⟨hWF, hparts⟩
    | tail _ hstep ih => exact capStep_preserve hstep ih.1 ih.2
  · intro u req db db' sl hok hc hfind
    rcases createBooking_ok_iff.mp hok with ⟨-, -, rfl⟩
    have hslots : (createdBDB u req db).slots =
        updateFirst (fun s => some s.slot_id == req.slot_id)
          (fun s => { s with booked_spots := s.booked_spots + req.participants })
          db.slots := by
      show bookedSlots req db.slots = _
      unfold bookedSlots
      rw [if_pos hc]
    have hfu : (updateFirst (fun s => some s.slot_id == req.slot_id)
          (fun s => { s with booked_spots := s.booked_spots + req.participants })
          db.slots).find? (fun s => some s.slot_id == req.slot_id) =
        (db.slots.find? (fun s => some s.slot_id == req.slot_id)).map
          (fun s => { s with booked_spots := s.booked_spots + req.participants }) :=
      find?_updateFirst (fun s => some s.slot_id == req.slot_id)
        (fun s => { s with booked_spots := s.booked_spots + req.participants })
        (fun a ha => ha) db.slots
    rw [hslots, hfu, hfind]
    rfl

/-- C1 counterexample: from a store satisfying the capacity invariant, a
single successful `create_booking` whose availability check is satisfied
by slot 1 but whose `slot_id` names the already-full slot 2 drives slot 2
to `booked_spots = 3 > available_spots = 1`. -/
theorem slot_capacity_counterexample :
    slotCapInv c1db ∧
    createBooking plainUser c1req c1db = Except.ok c1after ∧
    ¬ slotCapInv c1after := by
  refine ⟨by decide, by decide, by decide⟩

/-- C1 witness: the guarded preservation applied to a concrete store and
one concrete guarded create, and the increment fact at the same create. -/
theorem slot_capacity_guarded_witness :
    (∀ sl ∈ w2after.slots, sl.booked_spots ≤ sl.available_spots) ∧
    w2after.slots.find? (fun s => some s.slot_id == w2req.slot_id) =
      some ⟨1, some 1, 0, 100000, 5, 1, "available"⟩ :=
  ⟨slot_capacity_guarded.1 w2db w2after (by decide) (by decide)
    (Relation.ReflTransGen.single (CapStep.create plainUser w2req (by decide)
      ⟨by decide, by decide⟩)),
   slot_capacity_guarded.2 plainUser w2req w2db w2after
     ⟨1, some 1, 0, 100000, 5, 0, "available"⟩ (by decide) (by decide) (by decide)⟩

/-! ## Claim C2: the service availability gate -/

theorem slotMatches_iff {req : BookingCreateReq} {sl : SlotR} :
    slotMatches req.service_id (reqStart req) (reqEnd req) req.participants sl = true ↔
      goodSlot req sl := by
  simp [slotMatches, goodSlot, and_assoc]

/-- C2: a booking-creation request targeting a service succeeds only if
some `AvailabilitySlot` of that service contains the computed
`[start, end)` interval, has status `available`, and has
`available_spots - booked_spots ≥ participants`; and when no such slot
exists (and the business exists, so the 404 path is not taken), the
request is rejected with the 400 error
"No available slots for this service at the selected time". -/
theorem create_booking_service_gate (u : UserR) (req : BookingCreateReq) (db : BDB) :
    (∀ db', createBooking u req db = Except.ok db' → truthyN req.service_id = true →
      ∃ sl ∈ db.slots, goodSlot req sl) ∧
    (truthyN req.service_id = true → db.businesses.contains req.business_id = true →
      (∀ sl ∈ db.slots, ¬ goodSlot req sl) →
      createBooking u req db =
        Except.error ⟨400, "No available slots for this service at the selected time"⟩) := by
  constructor
  · intro db' hok htr
    rcases createBooking_ok_iff.mp hok with ⟨-, hchk, -⟩
    rcases slot_of_check hchk htr with ⟨sl, hfind⟩
    exact ⟨sl, List.mem_of_find?_eq_some hfind,
      slotMatches_iff.mp (List.find?_some hfind)⟩
  · intro htr hbiz hno
    have hfind : db.slots.find? (slotMatches req.service_id (reqStart req) (reqEnd req)
        req.participants) = none := by
      rw [List.find?_eq_none]
      intro sl hsl
      simp only [Bool.not_eq_true]
      by_contra hc
      simp only [Bool.not_eq_false] at hc
      exact hno sl hsl (slotMatches_iff.mp hc)
    have hchk : checkAvailability db req.service_id req.resource_id (reqStart req)
        (reqEnd req) req.participants =
        (false, "No available slots for this service at the selected time") := by
      unfold checkAvailability
      rw [if_pos (by simp [htr, hfind])]
    unfold createBooking
    rw [if_neg (by simpa using hbiz), hchk]
    rfl

/-- C2 witness: the gate instantiated at a concrete successful creation
(slot 1 satisfies the condition) and at a concrete slotless store (the
400 rejection fires). -/
theorem create_booking_service_gate_witness :
    (∃ sl ∈ w2db.slots, goodSlot w2req sl) ∧
    createBooking plainUser w2req w2empty =
      Except.error ⟨400, "No available slots for this service at the selected time"⟩ :=
  ⟨(create_booking_service_gate plainUser w2req w2db).1 w2after (by decide) (by decide),
   (create_booking_service_gate plainUser w2req w2empty).2 (by decide) (by decide)
     (by decide)⟩

/-! ## Claim C4: terminal immutability -/

/-- C4: against a booking whose status is terminal
(`completed`/`cancelled`/`no_show`), every update, cancel and participant
create/update/delete fails with a 400 error whose message names the
booking's current status (the handler raises before any write, so the
store is unchanged: an `.error` result carries no new store). -/
theorem terminal_immutability (db : BDB) (u : UserR) :
    (∀ (bid : Nat) (upd : BookingUpdateReq) (b : BookingR),
      findBooking db bid = some b → authorizedForBooking u b = true →
      b.status.isTerminal = true →
      updateBooking u bid upd db =
        Except.error ⟨400, "Cannot update a booking with status: " ++ b.status.str⟩) ∧
    (∀ (now : Int) (bid : Nat) (reason : String) (b : BookingR),
      findBooking db bid = some b → authorizedForBooking u b = true →
      b.status.isTerminal = true →
      cancelBooking now u bid reason db =
        Except.error ⟨400, "Cannot cancel a booking with status: " ++ b.status.str⟩) ∧
    (∀ (req : PartCreateReq) (b : BookingR),
      findBooking db req.booking_id = some b → b.user_id = u.user_id →
      b.status.isTerminal = true →
      createParticipant u req db =
        Except.error ⟨400, "Cannot modify a booking with status: " ++ b.status.str⟩) ∧
    (∀ (pid : Nat) (upd : PartUpdateReq) (p : PartR) (b : BookingR),
      db.participants.find? (fun x => x.participant_id == pid) = some p →
      findBooking db p.booking_id = some b → b.user_id = u.user_id →
      b.status.isTerminal = true →
      updateParticipant u pid upd db =
        Except.error ⟨400, "Cannot modify a booking with status: " ++ b.status.str⟩) ∧
    (∀ (pid : Nat) (p : PartR) (b : BookingR),
      db.participants.find? (fun x => x.participant_id == pid) = some p →
      findBooking db p.booking_id = some b → b.user_id = u.user_id →
      b.status.isTerminal = true →
      deleteParticipant u pid db =
        Except.error ⟨400, "Cannot modify a booking with status: " ++ b.status.str⟩) := by
  refine ⟨?_, ?_, ?_, ?_, ?_⟩
  · intro bid upd b hfb hauth hterm
    unfold updateBooking
    split
    · rename_i hfb2
      rw [hfb] at hfb2
      simp at hfb2
    · rename_i b2 hfb2
      rw [hfb] at hfb2
      obtain rfl : b = b2 := Option.some.inj hfb2
      rw [if_neg (by simp [hauth]), if_pos hterm]
  · intro now bid reason b hfb hauth hterm
    unfold cancelBooking
    split
    · rename_i hfb2
      rw [hfb] at hfb2
      simp at hfb2
    · rename_i b2 hfb2
      rw [hfb] at hfb2
      obtain rfl : b = b2 := Option.some.inj hfb2
      rw [if_neg (by simp [hauth]), if_pos hterm]
  · intro req b hfb huser hterm
    unfold createParticipant
    split
    · rename_i hfb2
      rw [hfb] at hfb2
      simp at hfb2
    · rename_i b2 hfb2
      rw [hfb] at hfb2
      obtain rfl : b = b2 := Option.some.inj hfb2
      rw [if_neg (by simp [huser]), if_pos hterm]
  · intro pid upd p b hpart hfb huser hterm
    unfold updateParticipant
    split
    · rename_i hp2
      rw [hpart] at hp2
      simp at hp2
    · rename_i p2 hp2
      rw [hpart] at hp2
      obtain rfl : p = p2 := Option.some.inj hp2
      split
      · rename_i hfb2
        rw [hfb] at hfb2
        simp at hfb2
      · rename_i b2 hfb2
        rw [hfb] at hfb2
        obtain rfl : b = b2 := Option.some.inj hfb2
        rw [if_neg (by simp [huser]), if_pos hterm]
  · intro pid p b hpart hfb huser hterm
    unfold deleteParticipant
    split
    · rename_i hp2
      rw [hpart] at hp2
      simp at hp2
    · rename_i p2 hp2
      rw [hpart] at hp2
      obtain rfl : p = p2 := Option.some.inj hp2
      split
      · rename_i hfb2
        rw [hfb] at hfb2
        simp at hfb2
      · rename_i b2 hfb2
        rw [hfb] at hfb2
        obtain rfl : b = b2 := Option.some.inj hfb2
        rw [if_neg (by simp [huser]), if_pos hterm]

/-- C4 witness: all five rejections at a concrete completed booking. -/
theorem terminal_immutability_witness :
    updateBooking plainUser 1 cancelStatusUpd c4db =
      Except.error ⟨400, "Cannot update a booking with status: completed"⟩ ∧
    cancelBooking 0 plainUser 1 "r" c4db =
      Except.error ⟨400, "Cannot cancel a booking with status: completed"⟩ ∧
    createParticipant plainUser ⟨1, "X", "Y", none, none, none, none⟩ c4db =
      Except.error ⟨400, "Cannot modify a booking with status: completed"⟩ ∧
    updateParticipant plainUser 1 ⟨none, none, none, none, none, none⟩ c4db =
      Except.error ⟨400, "Cannot modify a booking with status: completed"⟩ ∧
    deleteParticipant plainUser 1 c4db =
      Except.error ⟨400, "Cannot modify a booking with status: completed"⟩ :=
  ⟨(terminal_immutability c4db plainUser).1 1 cancelStatusUpd c4booking
      (by decide) (by decide) (by decide),
   (terminal_immutability c4db plainUser).2.1 0 1 "r" c4booking
      (by decide) (by decide) (by decide),
   (terminal_immutability c4db plainUser).2.2.1 ⟨1, "X", "Y", none, none, none, none⟩
      c4booking (by decide) (by decide) (by decide),
   (terminal_immutability c4db plainUser).2.2.2.1 1 ⟨none, none, none, none, none, none⟩
      ⟨1, 1, "A", "B", none, none, none, none⟩ c4booking
      (by decide) (by decide) (by decide) (by decide),
   (terminal_immutability c4db plainUser).2.2.2.2 1
      ⟨1, 1, "A", "B", none, none, none, none⟩ c4booking
      (by decide) (by decide) (by decide) (by decide)⟩

/-! ## Claim C10: the frame of update-to-cancelled vs cancel_booking -/

theorem BStatus.cancelled_bne {s : BStatus} (h : s.isTerminal = false) :
    (BStatus.cancelled != s) = true := by
  cases s <;> simp_all [BStatus.isTerminal]

/-- C10: setting a non-terminal booking's status to `cancelled` through
the generic `update_booking` appends exactly one history row but leaves
the slots table and the booking's `cancelled_at`/`cancelled_by`/
`cancellation_reason` fields unchanged; the dedicated `cancel_booking`
writes the cancellation metadata and decrements the linked slot's
`booked_spots` (floored at 0). -/
theorem update_cancel_frame :
    (∀ (u : UserR) (bid : Nat) (b : BookingR) (db db' : BDB),
      findBooking db bid = some b →
      updateBooking u bid cancelStatusUpd db = Except.ok db' →
      db'.slots = db.slots ∧
      db'.bookings.find? (fun x => x.booking_id == bid) =
        some { b with status := BStatus.cancelled } ∧
      db'.history = db.history ++
        [⟨bid, some b.status.str, "cancelled", u.user_id, some "Status updated"⟩]) ∧
    (∀ (now : Int) (u : UserR) (bid : Nat) (b : BookingR) (reason : String) (db db' : BDB),
      findBooking db bid = some b →
      cancelBooking now u bid reason db = Except.ok db' →
      db'.bookings.find? (fun x => x.booking_id == bid) =
        some (cancelledBooking now u b reason) ∧
      (∀ sl : SlotR, (truthyN b.service_id && truthyN b.slot_id) = true →
        db.slots.find? (fun s => some s.slot_id == b.slot_id) = some sl →
        db'.slots.find? (fun s => some s.slot_id == b.slot_id) =
          some { sl with booked_spots :=
            if sl.booked_spots - b.participants < 0 then 0
            else sl.booked_spots - b.participants })) := by
  constructor
  · intro u bid b db db' hfb hok
    rcases updateBooking_ok_iff.mp hok with ⟨b2, hfb2, -, hterm, -, rfl⟩
    rw [hfb] at hfb2
    obtain rfl : b = b2 := Option.some.inj hfb2
    have hbid : (b.booking_id == bid) = true := by simpa using List.find?_some hfb
    refine ⟨rfl, ?_, ?_⟩
    · have hfu := find?_updateFirst (fun x => x.booking_id == bid)
        (fun _ => applyBookingUpdate b cancelStatusUpd) (fun a _ => hbid) db.bookings
      have hfb3 : db.bookings.find? (fun x => x.booking_id == bid) = some b := hfb
      show (updateFirst (fun x => x.booking_id == bid)
        (fun _ => applyBookingUpdate b cancelStatusUpd) db.bookings).find?
          (fun x => x.booking_id == bid) = _
      rw [hfu, hfb3]
      rfl
    · show db.history ++ statusHist u bid b cancelStatusUpd = _
      have hne := BStatus.cancelled_bne hterm
      simp only [statusHist, cancelStatusUpd, hne, if_pos]
      rfl
  · intro now u bid b reason db db' hfb hok
    rcases cancelBooking_ok_iff.mp hok with ⟨b2, hfb2, -, -, rfl⟩
    rw [hfb] at hfb2
    obtain rfl : b = b2 := Option.some.inj hfb2
    have hbid : (b.booking_id == bid) = true := by simpa using List.find?_some hfb
    constructor
    · have hfu := find?_updateFirst (fun x => x.booking_id == bid)
        (fun _ => cancelledBooking now u b reason) (fun a _ => hbid) db.bookings
      have hfb3 : db.bookings.find? (fun x => x.booking_id == bid) = some b := hfb
      show (updateFirst (fun x => x.booking_id == bid)
        (fun _ => cancelledBooking now u b reason) db.bookings).find?
          (fun x => x.booking_id == bid) = _
      rw [hfu, hfb3]
      rfl
    · intro sl hc hfsl
      have hsl : (cancelledBDB now u bid b reason db).slots =
          updateFirst (fun s => some s.slot_id == b.slot_id)
            (fun s =>
              let nb := s.booked_spots - b.participants
              { s with booked_spots := if nb < 0 then 0 else nb }) db.slots := by
        show unbookedSlots b db.slots = _
        unfold unbookedSlots
        rw [if_pos hc]
      have hfu := find?_updateFirst (fun s => some s.slot_id == b.slot_id)
        (fun s =>
          let nb := s.booked_spots - b.participants
          { s with booked_spots := if nb < 0 then 0 else nb })
        (fun a ha => ha) db.slots
      rw [hsl, hfu, hfsl]
      rfl

/-- C10 witness: the frame facts at a concrete pending booking holding
slot 3 (update leaves the slot at 2 booked spots and the cancellation
fields `none`; cancel records them and decrements to 0). -/
theorem update_cancel_frame_witness :
    (c10upd.slots = c10db.slots ∧
      c10upd.bookings.find? (fun x => x.booking_id == 1) =
        some { c10booking with status := BStatus.cancelled } ∧
      c10upd.history = c10db.history ++
        [⟨1, some "pending", "cancelled", 5, some "Status updated"⟩]) ∧
    (c10cancel.bookings.find? (fun x => x.booking_id == 1) =
        some (cancelledBooking 77 plainUser c10booking "why") ∧
      c10cancel.slots.find? (fun s => some s.slot_id == c10booking.slot_id) =
        some ⟨3, some 1, 0, 100000, 5, 0, "available"⟩) :=
  ⟨update_cancel_frame.1 plainUser 1 c10booking c10db c10upd (by decide) (by decide),
   by
    rcases update_cancel_frame.2 77 plainUser 1 c10booking "why" c10db c10cancel
      (by decide) (by decide) with ⟨h1, h2⟩
    exact ⟨h1, by
      have := h2 ⟨3, some 1, 0, 100000, 5, 2, "available"⟩ (by decide) (by decide)
      simpa using this⟩⟩

/-! ## Extraction lemmas for the payment handlers -/

theorem createPayment_ok {u : UserR} {req : PaymentCreateReq} {db db' : PDB}
    (h : createPayment u req db = Except.ok db') :
    ∃ bk, findPayBooking db req.booking_id = some bk ∧ db' = paymentCreatedPDB req bk db := by
  unfold createPayment at h
  split at h
  · exact absurd h (by simp)
  · rename_i bk hbk
    split_ifs at h with h1
    split at h
    · exact absurd h (by simp)
    · exact ⟨bk, hbk, (Except.ok.inj h).symm⟩

theorem createRefund_ok {u : UserR} {req : RefundCreateReq} {db db' : PDB}
    (h : createRefund u req db = Except.ok db') :
    ∃ p bk, db.payments.find? (fun x => x.payment_id == req.payment_id) = some p ∧
      findPayBooking db p.booking_id = some bk ∧
      (p.status == "completed" || p.status == "processing") = true ∧
      req.amount + refundSum db.refunds req.payment_id ≤ p.amount ∧
      (db' = fullRefundPDB req p bk db ∨
        db' = { db with refunds := db.refunds ++ [newRefund req db.nextRefundId],
                        nextRefundId := db.nextRefundId + 1 }) := by
  unfold createRefund at h
  split at h
  · exact absurd h (by simp)
  · rename_i p hp
    split at h
    · exact absurd h (by simp)
    · rename_i bk hbk
      split_ifs at h with h1 h2 h3 h4
      · have hX : (p.status == "completed" || p.status == "processing") = true := by
          cases hb : (p.status == "completed" || p.status == "processing") with
          | false => exact absurd (by rw [hb]; rfl) h2
          | true => rfl
        refine ⟨p, bk, hp, hbk, hX, by linarith [not_lt.mp h3], ?_⟩
        exact Or.inl (Except.ok.inj h).symm
      · have hX : (p.status == "completed" || p.status == "processing") = true := by
          cases hb : (p.status == "completed" || p.status == "processing") with
          | false => exact absurd (by rw [hb]; rfl) h2
          | true => rfl
        refine ⟨p, bk, hp, hbk, hX, by linarith [not_lt.mp h3], ?_⟩
        exact Or.inr (Except.ok.inj h).symm

theorem updateRefund_ok {now : Int} {u : UserR} {rid : Nat} {upd : RefundUpdateReq}
    {db db' : PDB} (h : updateRefund now u rid upd db = Except.ok db') :
    ∃ r, db.refunds.find? (fun x => x.refund_id == rid) = some r ∧
      db' = { db with
          refunds := updateFirst (fun x => x.refund_id == rid)
            (fun _ => refundAfterUpdate now r upd) db.refunds } := by
  unfold updateRefund at h
  split at h
  · exact absurd h (by simp)
  · rename_i r hr
    split at h
    · exact absurd h (by simp)
    · split at h
      · exact absurd h (by simp)
      · split_ifs at h with h1
        exact ⟨r, hr, (Except.ok.inj h).symm⟩

theorem refundAfterUpdate_status (now : Int) (r : RefundR) (upd : RefundUpdateReq) :
    (refundAfterUpdate now r upd).status = upd.status.getD r.status := rfl

theorem refundAfterUpdate_amount (now : Int) (r : RefundR) (upd : RefundUpdateReq) :
    (refundAfterUpdate now r upd).amount = r.amount := rfl

theorem refundAfterUpdate_payment_id (now : Int) (r : RefundR) (upd : RefundUpdateReq) :
    (refundAfterUpdate now r upd).payment_id = r.payment_id := rfl

/-! ## Sum lemmas for refunds and payments -/

theorem nonFailedRefundSum_append (rs : List RefundR) (r : RefundR) (pid : Nat) :
    nonFailedRefundSum (rs ++ [r]) pid = nonFailedRefundSum rs pid + refundContrib pid r := by
  simp [nonFailedRefundSum]

theorem refundSum_eq_nonFailed {rs : List RefundR} {pid : Nat}
    (h : ∀ r ∈ rs, r.status = "pending" ∨ r.status = "processing" ∨
      r.status = "completed" ∨ r.status = "failed") :
    refundSum rs pid = nonFailedRefundSum rs pid := by
  induction rs with
  | nil => rfl
  | cons r rest ih =>
    have hr := h r (List.mem_cons_self r rest)
    have hrest := ih (fun x hx => h x (List.mem_cons_of_mem _ hx))
    simp only [refundSum, nonFailedRefundSum, List.filter_cons, List.map_cons,
      List.sum_cons] at hrest ⊢
    by_cases hpid : (r.payment_id == pid) = true
    · rcases hr with h1 | h1 | h1 | h1 <;>
        simp [refundContrib, hpid, h1, hrest, refundSum, nonFailedRefundSum]
    · simp only [Bool.not_eq_true] at hpid
      simp [refundContrib, hpid, hrest, refundSum, nonFailedRefundSum]

theorem paidSum_append (pays : List PaymentR) (p : PaymentR) (bid : Nat)
    (h : (p.status == "completed" || p.status == "processing") = false) :
    paidSum (pays ++ [p]) bid = paidSum pays bid := by
  unfold paidSum
  rw [List.filter_append]
  have hnil : List.filter (fun q =>
      q.booking_id == bid && (q.status == "completed" || q.status == "processing")) [p] = [] := by
    simp [List.filter, h]
  rw [hnil, List.append_nil]

/-! ## Claim C5: the refund ceiling -/

theorem refStep_preserve {db db' : PDB} (hst : RefStep db db')
    (hWF : refundsWF db) (hids : paymentIdsNodup db) (hinv : refundCeiling db) :
    refundsWF db' ∧ paymentIdsNodup db' ∧ refundCeiling db' := by
  cases hst with
  | create u req hok hamt =>
    rcases createRefund_ok hok with ⟨p, bk, hp, hbk, hst3, hceil, hdb⟩
    have hpmem : p ∈ db.payments := List.mem_of_find?_eq_some hp
    have hpid : p.payment_id = req.payment_id := by simpa using List.find?_some hp
    have hsum3 : refundSum db.refunds req.payment_id =
        nonFailedRefundSum db.refunds req.payment_id :=
      refundSum_eq_nonFailed (fun r hr => (hWF r hr).1)
    have hwf1 : ∀ x ∈ db.refunds ++ [newRefund req db.nextRefundId],
        (x.status = "pending" ∨ x.status = "processing" ∨ x.status = "completed" ∨
          x.status = "failed") ∧ 0 ≤ x.amount := by
      intro x hx
      rcases List.mem_append.mp hx with hold | hnew
      · exact hWF x hold
      · obtain rfl : x = newRefund req db.nextRefundId := List.mem_singleton.mp hnew
        exact ⟨Or.inl rfl, hamt⟩
    have key : ∀ q ∈ db.payments,
        nonFailedRefundSum (db.refunds ++ [newRefund req db.nextRefundId]) q.payment_id ≤
          q.amount := by
      intro q hq
      rw [nonFailedRefundSum_append]
      by_cases hqe : q.payment_id = req.payment_id
      · obtain rfl : q = p := List.inj_on_of_nodup_map hids hq hpmem (by rw [hqe, hpid])
        have hcontrib : refundContrib q.payment_id (newRefund req db.nextRefundId) =
            req.amount := by
          simp [refundContrib, newRefund, hqe]
        rw [hcontrib, hqe, ← hsum3]
        linarith
      · have hb : (req.payment_id == q.payment_id) = false := by
          rw [beq_eq_false_iff_ne]
          exact fun hh => hqe hh.symm
        have hcontrib : refundContrib q.payment_id (newRefund req db.nextRefundId) = 0 := by
          simp [refundContrib, newRefund, hb]
        rw [hcontrib, add_zero]
        exact hinv q hq
    rcases hdb with rfl | rfl
    · refine ⟨hwf1, ?_, ?_⟩
      · show ((updateFirst (fun x => x.payment_id == req.payment_id)
          (fun x => { x with status := "refunded" }) db.payments).map
            (fun x => x.payment_id)).Nodup
        rw [map_updateFirst (fun x => x.payment_id == req.payment_id)
          (fun x => { x with status := "refunded" }) (fun x => x.payment_id)
          (fun a _ => rfl) db.payments]
        exact hids
      · intro p' hp'
        have hp'2 : p' ∈ updateFirst (fun x => x.payment_id == req.payment_id)
            (fun x => { x with status := "refunded" }) db.payments := hp'
        rcases mem_updateFirst hp'2 with hold | ⟨a, ham, hpa, rfl⟩
        · exact key p' hold
        · exact key a ham
    · exact ⟨hwf1, hids, fun p' hp' => key p' hp'⟩
  | update now u rid upd hok henum hnorevive =>
    rcases updateRefund_ok hok with ⟨r, hr, rfl⟩
    have hrmem : r ∈ db.refunds := List.mem_of_find?_eq_some hr
    have hrWF := hWF r hrmem
    refine ⟨?_, hids, ?_⟩
    · intro x hx
      have hx2 : x ∈ updateFirst (fun y => y.refund_id == rid)
          (fun _ => refundAfterUpdate now r upd) db.refunds := hx
      rcases mem_updateFirst hx2 with hold | ⟨a, ham, hpa, rfl⟩
      · exact hWF x hold
      · constructor
        · rw [refundAfterUpdate_status]
          cases hu : upd.status with
          | none => simpa using hrWF.1
          | some s =>
            rcases henum with he | he | he | he | he <;> rw [he] at hu <;>
              simp_all
        · rw [refundAfterUpdate_amount]
          exact hrWF.2
    · intro p' hp'
      have hle : nonFailedRefundSum (updateFirst (fun y => y.refund_id == rid)
            (fun _ => refundAfterUpdate now r upd) db.refunds) p'.payment_id ≤
          nonFailedRefundSum db.refunds p'.payment_id := by
        apply sum_map_updateFirst_le
        intro a ha
        obtain rfl : r = a := Option.some.inj (hr.symm.trans ha)
        unfold refundContrib
        simp only [refundAfterUpdate_payment_id, refundAfterUpdate_amount,
          refundAfterUpdate_status]
        by_cases hpid : (r.payment_id == p'.payment_id) = true
        · by_cases hrf : r.status = "failed"
          · rcases hnorevive r hr hrf with hu | hu <;>
              simp [hpid, hu, hrf]
          · have hrb : (r.status == "failed") = false := by
              rw [beq_eq_false_iff_ne]
              exact hrf
            by_cases hnf : (upd.status.getD r.status == "failed") = true
            · simp [hpid, hrb, hnf]
              exact hrWF.2
            · simp only [Bool.not_eq_true] at hnf
              simp [hpid, hrb, hnf]
        · simp only [Bool.not_eq_true] at hpid
          simp [hpid]
      exact le_trans hle (hinv p' hp')

/-- C5 (amended): `create_refund` rejects a refund against a payment whose
status is outside `{completed, processing}` and one that would push the
pending/processing/completed refund total above the payment amount; and
the non-failed-refund ceiling is preserved by any sequence of refund
creates and of refund updates drawn from `RefundStatusEnum` that do not
move a `failed` refund back to a non-failed status.  (`update_refund`
itself re-checks nothing, so reviving a failed refund breaks the ceiling:
see the counterexample.) -/
theorem refund_ceiling_amended :
    (∀ db db' : PDB, refundsWF db → paymentIdsNodup db → refundCeiling db →
      Relation.ReflTransGen RefStep db db' → refundCeiling db') ∧
    (∀ (u : UserR) (req : RefundCreateReq) (db : PDB) (p : PaymentR) (bk : PayBooking),
      db.payments.find? (fun x => x.payment_id == req.payment_id) = some p →
      findPayBooking db p.booking_id = some bk →
      (u.businesses.contains bk.business_id || u.isAdmin) = true →
      (p.status == "completed" || p.status == "processing") = false →
      createRefund u req db =
        Except.error ⟨400, "Only completed or processing payments can be refunded"⟩) ∧
    (∀ (u : UserR) (req : RefundCreateReq) (db : PDB) (p : PaymentR) (bk : PayBooking),
      db.payments.find? (fun x => x.payment_id == req.payment_id) = some p →
      findPayBooking db p.booking_id = some bk →
      (u.businesses.contains bk.business_id || u.isAdmin) = true →
      (p.status == "completed" || p.status == "processing") = true →
      p.amount < req.amount + refundSum db.refunds req.payment_id →
      createRefund u req db =
        Except.error ⟨400, "Refund amount exceeds available payment amount"⟩) := by
  refine ⟨?_, ?_, ?_⟩
  · intro db db' hWF hids hinv hsteps
    suffices h : refundsWF db' ∧ paymentIdsNodup db' ∧ refundCeiling db' from h.2.2
    induction hsteps with
    | refl => exact ⟨hWF, hids, hinv⟩
    | tail _ hstep ih => exact refStep_preserve hstep ih.1 ih.2.1 ih.2.2
  · intro u req db p bk hp hbk hauth hst
    unfold createRefund
    split
    · rename_i hp2
      rw [hp] at hp2
      simp at hp2
    · rename_i p2 hp2
      rw [hp] at hp2
      obtain rfl : p = p2 := Option.some.inj hp2
      split
      · rename_i hbk2
        rw [hbk] at hbk2
        simp at hbk2
      · rename_i bk2 hbk2
        rw [hbk] at hbk2
        obtain rfl : bk = bk2 := Option.some.inj hbk2
        rw [if_neg (by rw [hauth]; decide), if_pos (by rw [hst]; decide)]
  · intro u req db p bk hp hbk hauth hst hover
    unfold createRefund
    split
    · rename_i hp2
      rw [hp] at hp2
      simp at hp2
    · rename_i p2 hp2
      rw [hp] at hp2
      obtain rfl : p = p2 := Option.some.inj hp2
      split
      · rename_i hbk2
        rw [hbk] at hbk2
        simp at hbk2
      · rename_i bk2 hbk2
        rw [hbk] at hbk2
        obtain rfl : bk = bk2 := Option.some.inj hbk2
        rw [if_neg (by rw [hauth]; decide), if_neg (by rw [hst]; decide), if_pos hover]

/-- C5 counterexample: create a 60 refund, mark it failed, create a full
100 refund, then move the first refund back to `pending` through
`update_refund`: the non-failed refund total reaches 160 on a payment of
100, so the ceiling as claimed does not survive update operations. -/
theorem refund_ceiling_counterexample :
    refundCeiling c5db ∧
    createRefund adminUser ⟨1, 60⟩ c5db = Except.ok c5s1 ∧
    updateRefund 0 adminUser 1 ⟨some "failed", none⟩ c5s1 = Except.ok c5s2 ∧
    createRefund adminUser ⟨1, 100⟩ c5s2 = Except.ok c5s3 ∧
    updateRefund 0 adminUser 1 ⟨some "pending", none⟩ c5s3 = Except.ok c5s4 ∧
    ¬ refundCeiling c5s4 :=
  ⟨by norm_num +decide [refundCeiling, c5db, nonFailedRefundSum, refundContrib],
   by norm_num +decide [createRefund, c5db, c5s1, adminUser, UserR.isAdmin, findPayBooking,
     refundSum, fullRefundPDB, newRefund],
   by norm_num +decide [updateRefund, c5s1, c5s2, adminUser, UserR.isAdmin, findPayBooking,
     refundAfterUpdate, updateFirst],
   by norm_num +decide [createRefund, c5s2, c5s3, c5s1, adminUser, UserR.isAdmin,
     findPayBooking, refundSum, fullRefundPDB, newRefund, paidSumExcept, updateFirst],
   by norm_num +decide [updateRefund, c5s3, c5s4, adminUser, UserR.isAdmin, findPayBooking,
     refundAfterUpdate, updateFirst],
   by norm_num +decide [refundCeiling, c5s4, c5s3, nonFailedRefundSum, refundContrib]⟩

/-- C5 witness: the guarded preservation across an actual refund creation,
and the over-ceiling rejection in the state that results. -/
theorem refund_ceiling_amended_witness :
    refundCeiling c5s1 ∧
    createRefund adminUser ⟨1, 50⟩ c5s1 =
      Except.error ⟨400, "Refund amount exceeds available payment amount"⟩ :=
  ⟨refund_ceiling_amended.1 c5db c5s1 (by decide) (by decide)
    (by norm_num +decide [refundCeiling, c5db, nonFailedRefundSum, refundContrib])
    (Relation.ReflTransGen.single (RefStep.create adminUser ⟨1, 60⟩
      (by norm_num +decide [createRefund, c5db, c5s1, adminUser, UserR.isAdmin,
        findPayBooking, refundSum, fullRefundPDB, newRefund]) (by decide))),
   refund_ceiling_amended.2.2 adminUser ⟨1, 50⟩ c5s1 ⟨1, 1, 100, "completed", none⟩
     ⟨1, 1, 1, 100, "paid"⟩ (by decide) (by decide) (by decide) (by decide)
     (by norm_num +decide [refundSum, c5s1])⟩

/-! ## Claim C8: payment creation and `payment_status` -/

/-- C8 (amended): `create_payment` inserts the payment with
`status="pending"` and recomputes the booking's `payment_status` from the
`completed`/`processing` payments only — the just-inserted pending payment
contributes nothing, so a payment equal to `final_amount` does not by
itself make the booking `paid`: the status becomes `paid` exactly when the
previously existing completed/processing payments already total at least
`final_amount`, `partial` when they total more than 0, and is otherwise
left unchanged. -/
theorem create_payment_recompute (u : UserR) (req : PaymentCreateReq) (db db' : PDB)
    (bk : PayBooking) (hbk : findPayBooking db req.booking_id = some bk)
    (hok : createPayment u req db = Except.ok db') :
    db'.payments = db.payments ++
      [⟨db.nextPaymentId, req.booking_id, req.amount, "pending", none⟩] ∧
    findPayBooking db' req.booking_id = some { bk with payment_status :=
      (if bk.final_amount ≤ paidSum db.payments req.booking_id then "paid"
      else if 0 < paidSum db.payments req.booking_id then "partial"
      else bk.payment_status) } := by
  rcases createPayment_ok hok with ⟨bk2, hbk2, rfl⟩
  rw [hbk] at hbk2
  obtain rfl : bk = bk2 := Option.some.inj hbk2
  have hsum : paidSum (db.payments ++
      [⟨db.nextPaymentId, req.booking_id, req.amount, "pending", none⟩]) req.booking_id =
      paidSum db.payments req.booking_id :=
    paidSum_append db.payments
      ⟨db.nextPaymentId, req.booking_id, req.amount, "pending", none⟩
      req.booking_id (by rfl)
  refine ⟨rfl, ?_⟩
  have hb2 : (bk.booking_id == req.booking_id) = true := by
    simpa using List.find?_some hbk
  have hfu := find?_updateFirst (fun x => x.booking_id == req.booking_id)
    (fun x => { x with payment_status :=
      if bk.final_amount ≤ paidSum (db.payments ++
          [⟨db.nextPaymentId, req.booking_id, req.amount, "pending", none⟩]) req.booking_id
      then "paid"
      else if 0 < paidSum (db.payments ++
          [⟨db.nextPaymentId, req.booking_id, req.amount, "pending", none⟩]) req.booking_id
      then "partial"
      else bk.payment_status })
    (fun a ha => ha) db.bookings
  have hbk3 : db.bookings.find? (fun x => x.booking_id == req.booking_id) = some bk := hbk
  show (updateFirst (fun x => x.booking_id == req.booking_id) _ db.bookings).find?
      (fun x => x.booking_id == req.booking_id) = _
  rw [hfu, hbk3]
  simp only [Option.map_some']
  rw [hsum]

/-- C8 counterexample: paying the full `final_amount = 100` against a
booking with no other payments leaves `payment_status = "pending"` — it
does not become `"paid"` as the claim states. -/
theorem create_payment_counterexample :
    createPayment adminUser ⟨1, none, 100⟩ c8db = Except.ok c8after ∧
    c8after.bookings = [⟨1, 1, 1, 100, "pending"⟩] ∧
    ¬ (findPayBooking c8after 1 = some ⟨1, 1, 1, 100, "paid"⟩) :=
  ⟨by norm_num +decide [createPayment, c8db, c8after, adminUser, UserR.isAdmin,
     findPayBooking, methodCheck, truthyN, paymentCreatedPDB, paidSum, updateFirst],
   by decide, by decide⟩

/-- C8 witness: the recompute characterization at the concrete full
payment (the status stays `pending`). -/
theorem create_payment_recompute_witness :
    c8after.payments = c8db.payments ++ [⟨1, 1, 100, "pending", none⟩] ∧
    findPayBooking c8after 1 = some ⟨1, 1, 1, 100, "pending"⟩ := by
  have h := create_payment_recompute adminUser ⟨1, none, 100⟩ c8db c8after
    ⟨1, 1, 1, 100, "pending"⟩ (by decide)
    (by norm_num +decide [createPayment, c8db, c8after, adminUser, UserR.isAdmin,
      findPayBooking, methodCheck, truthyN, paymentCreatedPDB, paidSum, updateFirst])
  refine ⟨h.1, ?_⟩
  rw [h.2]
  norm_num +decide [paidSum, c8db]

/-! ## Claim C6: business ratings -/

theorem createReview_ok {u : UserR} {req : ReviewCreateReq} {db db' : RDB}
    (h : createReview u req db = Except.ok db') :
    db' = updateBusinessRating req.business_id
      { db with
          reviews := db.reviews ++
            [⟨db.nextReviewId, req.booking_id, u.user_id, req.business_id, req.rating,
              "pending"⟩],
          nextReviewId := db.nextReviewId + 1 } := by
  unfold createReview at h
  split at h
  · exact absurd h (by simp)
  · split at h
    · exact absurd h (by simp)
    · split at h
      · exact absurd h (by simp)
      · exact (Except.ok.inj h).symm

theorem updateReview_ok {u : UserR} {rid : Nat} {newRating : Int} {db db' : RDB}
    (h : updateReview u rid newRating db = Except.ok db') :
    ∃ r, db.reviews.find? (fun x => x.review_id == rid && x.user_id == u.user_id) = some r ∧
      db' = updateBusinessRating r.business_id
        { db with
            reviews := updateFirst (fun x => x.review_id == rid && x.user_id == u.user_id)
              (fun x => { x with rating := newRating }) db.reviews } := by
  unfold updateReview at h
  split at h
  · exact absurd h (by simp)
  · rename_i r hr
    exact ⟨r, hr, (Except.ok.inj h).symm⟩

theorem deleteReview_ok {u : UserR} {rid : Nat} {db db' : RDB}
    (h : deleteReview u rid db = Except.ok db') :
    ∃ r, db.reviews.find? (fun x => x.review_id == rid && x.user_id == u.user_id) = some r ∧
      db' = updateBusinessRating r.business_id
        { db with
            reviews := db.reviews.eraseP
              (fun x => x.review_id == rid && x.user_id == u.user_id) } := by
  unfold deleteReview at h
  split at h
  · exact absurd h (by simp)
  · rename_i r hr
    exact ⟨r, hr, (Except.ok.inj h).symm⟩

theorem updateReviewStatus_ok {u : UserR} {rid : Nat} {s : String} {db db' : RDB}
    (h : updateReviewStatus u rid s db = Except.ok db') :
    db'.businesses = db.businesses ∧
    db'.reviews = updateFirst (fun x => x.review_id == rid)
      (fun x => { x with status := s }) db.reviews := by
  unfold updateReviewStatus at h
  split at h
  · exact absurd h (by simp)
  · split at h
    · exact absurd h (by simp)
    · obtain rfl := (Except.ok.inj h).symm
      exact ⟨rfl, rfl⟩

theorem bizRatingValue_congr {l l' : List ReviewR} {x : Nat}
    (h : approvedFor l x = approvedFor l' x) : bizRatingValue l x = bizRatingValue l' x := by
  unfold bizRatingValue
  rw [h]

theorem approvedFor_append (l1 l2 : List ReviewR) (x : Nat) :
    approvedFor (l1 ++ l2) x = approvedFor l1 x ++ approvedFor l2 x := by
  unfold approvedFor
  exact List.filter_append _ _

theorem approvedFor_cons_of_neg {r : ReviewR} {x : Nat}
    (h : (r.business_id == x && r.status == "approved") = false) (l : List ReviewR) :
    approvedFor (r :: l) x = approvedFor l x := by
  unfold approvedFor
  rw [List.filter_cons, if_neg (by simp [h])]

theorem bizRatingValue_append_nonapproved (l : List ReviewR) (r : ReviewR) (x : Nat)
    (h : r.status ≠ "approved") : bizRatingValue (l ++ [r]) x = bizRatingValue l x := by
  apply bizRatingValue_congr
  rw [approvedFor_append, approvedFor_cons_of_neg (by simp [h])]
  simp [approvedFor]

theorem nodup_decomp_ne {l1 l2 : List α} {a : α} (g : α → β)
    (hnd : ((l1 ++ a :: l2).map g).Nodup) : ∀ b ∈ l2, g b ≠ g a := by
  intro b hb he
  rw [List.map_append, List.map_cons] at hnd
  have h2 := (List.nodup_cons.mp hnd.of_append_right).1
  exact h2 (he ▸ List.mem_map_of_mem g hb)

theorem ratingInv_updateBusinessRating (db : RDB) (bid : Nat)
    (hnd : bizIdsNodup db)
    (hother : ∀ biz ∈ db.businesses, biz.business_id ≠ bid →
      biz.rating = bizRatingValue db.reviews biz.business_id) :
    ratingInv (updateBusinessRating bid db) := by
  intro b hb
  show b.rating = bizRatingValue db.reviews b.business_id
  unfold updateBusinessRating at hb
  simp only at hb
  cases hfind : db.businesses.find? (fun x => x.business_id == bid) with
  | none =>
    rw [updateFirst_of_find?_none hfind] at hb
    have hb' := List.find?_eq_none.mp hfind b hb
    exact hother b hb (by simpa using hb')
  | some a =>
    rcases updateFirst_of_find? hfind
        (fun x => { x with rating := bizRatingValue db.reviews bid }) with
      ⟨l1, l2, hdec, hl1, hupd⟩
    rw [hupd] at hb
    have haid : a.business_id = bid := by simpa using List.find?_some hfind
    rcases List.mem_append.mp hb with hb1 | hb2
    · have hmem : b ∈ db.businesses := by
        rw [hdec]; exact List.mem_append_left _ hb1
      exact hother b hmem (by simpa using hl1 b hb1)
    · rcases List.mem_cons.mp hb2 with rfl | hb3
      · simp [haid]
      · have hmem : b ∈ db.businesses := by
          rw [hdec]; exact List.mem_append_right _ (List.mem_cons_of_mem _ hb3)
        refine hother b hmem ?_
        have hne := nodup_decomp_ne (fun x => x.business_id) (by rw [← hdec]; exact hnd) b hb3
        simpa [haid] using hne

theorem bizIdsNodup_updateBusinessRating (db : RDB) (bid : Nat) (hnd : bizIdsNodup db) :
    bizIdsNodup (updateBusinessRating bid db) := by
  unfold bizIdsNodup updateBusinessRating
  simp only
  have h := map_updateFirst (fun (b : BizR) => b.business_id == bid)
    (fun b => { b with rating := bizRatingValue db.reviews bid })
    (fun b => b.business_id) (fun a _ => rfl) db.businesses
  rw [h]
  exact hnd

theorem bizRatingValue_modify_other {l : List ReviewR} {p : ReviewR → Bool} {r : ReviewR}
    (hfr : l.find? p = some r) (f : ReviewR → ReviewR)
    (hbiz : (f r).business_id = r.business_id) (x : Nat) (hx : x ≠ r.business_id) :
    bizRatingValue (updateFirst p f l) x = bizRatingValue l x := by
  rcases updateFirst_of_find? hfr f with ⟨l1, l2, hdec, -, hupd⟩
  rw [hupd, hdec]
  apply bizRatingValue_congr
  rw [approvedFor_append, approvedFor_append,
    approvedFor_cons_of_neg (by simp [hbiz, Ne.symm hx]),
    approvedFor_cons_of_neg (by simp [Ne.symm hx])]

theorem bizRatingValue_erase_other {l : List ReviewR} {p : ReviewR → Bool} {r : ReviewR}
    (hfr : l.find? p = some r) (x : Nat) (hx : x ≠ r.business_id) :
    bizRatingValue (l.eraseP p) x = bizRatingValue l x := by
  rcases eraseP_of_find? hfr with ⟨l1, l2, hdec, -, herase⟩
  rw [herase, hdec]
  apply bizRatingValue_congr
  rw [approvedFor_append, approvedFor_append,
    approvedFor_cons_of_neg (by simp [Ne.symm hx])]

theorem reviewStep_preserve {db db' : RDB} (hst : ReviewStep db db')
    (hnd : bizIdsNodup db) (hinv : ratingInv db) :
    bizIdsNodup db' ∧ ratingInv db' := by
  cases hst with
  | create u req hok =>
    obtain rfl := createReview_ok hok
    refine ⟨bizIdsNodup_updateBusinessRating _ _ hnd, ?_⟩
    refine ratingInv_updateBusinessRating _ _ hnd ?_
    intro biz hbiz hne
    show biz.rating = bizRatingValue (db.reviews ++ [_]) biz.business_id
    rw [bizRatingValue_append_nonapproved _ _ _
      (by show ("pending" : String) ≠ "approved"; decide)]
    exact hinv biz hbiz
  | update u rid newRating hok =>
    rcases updateReview_ok hok with ⟨r, hr, rfl⟩
    refine ⟨bizIdsNodup_updateBusinessRating _ _ hnd, ?_⟩
    refine ratingInv_updateBusinessRating _ _ hnd ?_
    intro biz hbiz hne
    show biz.rating = bizRatingValue (updateFirst _ _ db.reviews) biz.business_id
    rw [bizRatingValue_modify_other hr _ rfl biz.business_id hne]
    exact hinv biz hbiz
  | delete u rid hok =>
    rcases deleteReview_ok hok with ⟨r, hr, rfl⟩
    refine ⟨bizIdsNodup_updateBusinessRating _ _ hnd, ?_⟩
    refine ratingInv_updateBusinessRating _ _ hnd ?_
    intro biz hbiz hne
    show biz.rating = bizRatingValue (db.reviews.eraseP _) biz.business_id
    rw [bizRatingValue_erase_other hr biz.business_id hne]
    exact hinv biz hbiz

/-- C6 (amended): the rating invariant — every business row carries the
mean rating of its `approved` reviews (0 with none) — is preserved by any
sequence of review creates, updates and deletes (all of which end in
`update_business_rating`), provided business ids are unique; but the
status-change handler `update_review_status` never calls
`update_business_rating` and leaves the `businesses` table untouched while
rewriting the review's status, so approving a review breaks the invariant
(see the counterexample). -/
theorem rating_recompute_amended :
    (∀ db db' : RDB, bizIdsNodup db → ratingInv db →
      Relation.ReflTransGen ReviewStep db db' → ratingInv db') ∧
    (∀ (u : UserR) (rid : Nat) (s : String) (db db' : RDB),
      updateReviewStatus u rid s db = Except.ok db' →
      db'.businesses = db.businesses ∧
      db'.reviews = updateFirst (fun x => x.review_id == rid)
        (fun x => { x with status := s }) db.reviews) := by
  constructor
  · intro db db' hnd hinv hsteps
    suffices h : bizIdsNodup db' ∧ ratingInv db' from h.2
    induction hsteps with
    | refl => exact ⟨hnd, hinv⟩
    | tail _ hstep ih => exact reviewStep_preserve hstep ih.1 ih.2
  · intro u rid s db db' h
    exact updateReviewStatus_ok h

/-- C6 counterexample: approving the pending 5-star review through
`update_review_status` leaves the business rating at 0, so the rating does
not equal the mean (5) of the approved reviews after a status change. -/
theorem rating_recompute_counterexample :
    ratingInv c6db ∧
    updateReviewStatus c6owner 1 "approved" c6db = Except.ok c6after ∧
    c6after.reviews = [⟨1, 1, 1, 1, 5, "approved"⟩] ∧
    ¬ ratingInv c6after :=
  ⟨by decide, by decide, by decide, by
    intro h
    have h2 := h ⟨1, 0⟩ (by decide)
    norm_num +decide [bizRatingValue, approvedFor, c6after] at h2⟩

/-- C6 witness: the invariant survives an actual review creation (the new
review enters as `pending`, the recomputed mean over approved reviews is
0), and a concrete status change leaves `businesses` untouched. -/
theorem rating_recompute_amended_witness :
    ratingInv w6after ∧ c6after.businesses = c6db.businesses :=
  ⟨rating_recompute_amended.1 w6db w6after (by decide) (by decide)
    (Relation.ReflTransGen.single (ReviewStep.create plainUser ⟨1, 1, 4⟩ (by decide))),
   (rating_recompute_amended.2 c6owner 1 "approved" c6db c6after (by decide)).1⟩

/-! ## Claim C7: promotion redemption limits -/

theorem applyPromotion_ok {req : UsageReq} {db db' : PrDB}
    (h : applyPromotion req db = Except.ok db') :
    db.bookings.contains req.booking_id = true ∧
    db.usages.find? (fun x => x.booking_id == req.booking_id) = none ∧
    db'.usages = db.usages ++ [appliedUsage req db.nextUsageId] ∧
    db'.promotions = updateFirst (fun p => p.promotion_id == req.promotion_id)
      (fun p => { p with usage_count := p.usage_count + 1 }) db.promotions := by
  unfold applyPromotion at h
  split at h
  · exact absurd h (by simp)
  · split at h
    · exact absurd h (by simp)
    · rename_i hbook
      split at h
      · exact absurd h (by simp)
      · rename_i hnouse
        obtain rfl := (Except.ok.inj h).symm
        exact ⟨by simpa using hbook, hnouse, rfl, rfl⟩

theorem validate_ok_bounds {now : Int} {req : ValidationReq} {db : PrDB} {p : PromoR}
    (hfind : db.promotions.find? (fun x => x.code == req.code) = some p)
    (hvalid : (validatePromotion now req db).is_valid = true) :
    (∀ l, p.usage_limit = some l → l ≠ 0 → p.usage_count < l) ∧
    (p.per_user_limit ≠ 0 →
      (userUsages db.usages p.promotion_id req.user_id : Int) < p.per_user_limit) := by
  unfold validatePromotion at hvalid
  split at hvalid
  · rename_i hp2
    rw [hfind] at hp2
    simp at hp2
  · rename_i p2 hp2
    rw [hfind] at hp2
    obtain rfl : p = p2 := Option.some.inj hp2
    split_ifs at hvalid with h1 h2 h3 h4 h5 <;> try simp at hvalid
    constructor
    · intro l hl hlne
      rw [Bool.and_eq_true] at h3
      push_neg at h3
      have hx : truthyOI p.usage_limit = true := by
        rw [hl]
        simpa [truthyOI] using hlne
      have h7 := Bool.eq_false_iff.mpr (h3 hx)
      have h8 := of_decide_eq_false h7
      rw [hl] at h8
      simpa using not_le.mp h8
    · intro hplne
      rw [Bool.and_eq_true] at h4
      push_neg at h4
      have hx : (p.per_user_limit != 0) = true := by simpa using hplne
      exact not_le.mp (of_decide_eq_false (Bool.eq_false_iff.mpr (h4 hx)))

theorem promoUsages_append (us : List UsageR) (u : UsageR) (x : Nat) :
    promoUsages (us ++ [u]) x =
      promoUsages us x + if (u.promotion_id == x) = true then 1 else 0 := by
  unfold promoUsages
  rw [List.filter_append, List.length_append]
  congr 1
  rw [List.filter_cons]
  split <;> simp_all

theorem userUsages_append (us : List UsageR) (u : UsageR) (x uid : Nat) :
    userUsages (us ++ [u]) x uid =
      userUsages us x uid +
        if (u.promotion_id == x && u.user_id == uid) = true then 1 else 0 := by
  unfold userUsages
  rw [List.filter_append, List.length_append]
  congr 1
  rw [List.filter_cons]
  split <;> simp_all

theorem promoStep_preserve {db db' : PrDB} (hst : PromoStep db db')
    (hWF : promoWF db) (hinv : promoLimitInv db) : promoWF db' ∧ promoLimitInv db' := by
  cases hst with
  | apply req now vreq p hok hbyid hbycode huser hvalid =>
    rcases applyPromotion_ok hok with ⟨hbook, hnouse, husages, hpromos⟩
    have hbounds := validate_ok_bounds hbycode hvalid
    have hpid : p.promotion_id = req.promotion_id := by simpa using List.find?_some hbyid
    rcases updateFirst_of_find? hbyid
        (fun q => { q with usage_count := q.usage_count + 1 }) with ⟨l1, l2, hdec, hl1, hupd⟩
    have hp_mem : p ∈ db.promotions := by
      rw [hdec]
      exact List.mem_append_right _ (List.mem_cons_self _ _)
    have hl2ne : ∀ q ∈ l2, q.promotion_id ≠ p.promotion_id :=
      nodup_decomp_ne (fun (q : PromoR) => q.promotion_id) (by rw [← hdec]; exact hWF.1)
    have hpu : ∀ x : Nat, x ≠ req.promotion_id →
        promoUsages db'.usages x = promoUsages db.usages x := by
      intro x hx
      rw [husages, promoUsages_append]
      simp [appliedUsage, Ne.symm hx]
    have hpu2 : promoUsages db'.usages req.promotion_id =
        promoUsages db.usages req.promotion_id + 1 := by
      rw [husages, promoUsages_append]
      simp [appliedUsage]
    have huu : ∀ (x uid : Nat), x ≠ req.promotion_id →
        userUsages db'.usages x uid = userUsages db.usages x uid := by
      intro x uid hx
      rw [husages, userUsages_append]
      simp [appliedUsage, Ne.symm hx]
    have huu2 : ∀ uid, userUsages db'.usages req.promotion_id uid ≤
        userUsages db.usages req.promotion_id uid + 1 := by
      intro uid
      rw [husages, userUsages_append]
      split <;> omega
    have huu3 : ∀ uid, uid ≠ req.user_id →
        userUsages db'.usages req.promotion_id uid =
          userUsages db.usages req.promotion_id uid := by
      intro uid huid
      rw [husages, userUsages_append,
        if_neg (by simp [appliedUsage, Ne.symm huid]), Nat.add_zero]
    have hq_mem : ∀ q ∈ l1 ++ l2, q ∈ db.promotions := by
      intro q hq
      rw [hdec]
      rcases List.mem_append.mp hq with h | h
      · exact List.mem_append_left _ h
      · exact List.mem_append_right _ (List.mem_cons_of_mem _ h)
    have hqne : ∀ q ∈ l1 ++ l2, q.promotion_id ≠ req.promotion_id := by
      intro q hq
      rcases List.mem_append.mp hq with h | h
      · have h2 := hl1 q h
        simpa using h2
      · rw [← hpid]
        exact hl2ne q h
    refine ⟨⟨?_, ?_⟩, ?_⟩
    · rw [hpromos]
      have h := map_updateFirst (fun (q : PromoR) => q.promotion_id == req.promotion_id)
        (fun q => { q with usage_count := q.usage_count + 1 })
        (fun q => q.promotion_id) (fun a _ => rfl) db.promotions
      rw [h]
      exact hWF.1
    · intro q hq
      rw [hpromos, hupd] at hq
      rcases List.mem_append.mp hq with hq1 | hq2
      · rw [hpu q.promotion_id (hqne q (List.mem_append_left _ hq1))]
        exact hWF.2 q (hq_mem q (List.mem_append_left _ hq1))
      · rcases List.mem_cons.mp hq2 with rfl | hq3
        · show p.usage_count + 1 = (promoUsages db'.usages p.promotion_id : Int)
          have hcount := hWF.2 p hp_mem
          rw [hpid] at hcount ⊢
          rw [hpu2, hcount]
          push_cast
          ring
        · rw [hpu q.promotion_id (hqne q (List.mem_append_right _ hq3))]
          exact hWF.2 q (hq_mem q (List.mem_append_right _ hq3))
    · intro q hq
      rw [hpromos, hupd] at hq
      rcases List.mem_append.mp hq with hq1 | hq2
      · have hne := hqne q (List.mem_append_left _ hq1)
        have hold := hinv q (hq_mem q (List.mem_append_left _ hq1))
        refine ⟨fun l hl hlne => ?_, fun hpl uid => ?_⟩
        · rw [hpu q.promotion_id hne]
          exact hold.1 l hl hlne
        · rw [huu q.promotion_id uid hne]
          exact hold.2 hpl uid
      · rcases List.mem_cons.mp hq2 with rfl | hq3
        · have hcount := hWF.2 p hp_mem
          have hold := hinv p hp_mem
          refine ⟨fun l hl hlne => ?_, fun hpl uid => ?_⟩
          · have hlt := hbounds.1 l hl hlne
            show (promoUsages db'.usages p.promotion_id : Int) ≤ l
            rw [hpid] at hcount ⊢
            rw [hpu2]
            push_cast
            omega
          · show (userUsages db'.usages p.promotion_id uid : Int) ≤ p.per_user_limit
            have hplne : p.per_user_limit ≠ 0 := hpl
            by_cases huid : uid = req.user_id
            · have hlt := hbounds.2 hplne
              rw [huser] at hlt
              have hle := huu2 uid
              rw [hpid] at hlt ⊢
              rw [huid] at hle ⊢
              push_cast at hlt ⊢
              omega
            · rw [hpid]
              rw [huu3 uid huid]
              have h2 := hold.2 hplne uid
              rw [hpid] at h2
              exact h2
        · have hne := hqne q (List.mem_append_right _ hq3)
          have hold := hinv q (hq_mem q (List.mem_append_right _ hq3))
          refine ⟨fun l hl hlne => ?_, fun hpl uid => ?_⟩
          · rw [hpu q.promotion_id hne]
            exact hold.1 l hl hlne
          · rw [huu q.promotion_id uid hne]
            exact hold.2 hpl uid

/-- C7 (amended): `apply_promotion` itself checks only that the promotion
and booking exist and that the booking carries no prior usage — it checks
neither `usage_limit` nor `per_user_limit` (see the counterexample).  A
successful `validate_promotion` in the same state does enforce both
limits, and under the validate-then-apply workflow the stored usages stay
within a truthy `usage_limit` globally and within a truthy
`per_user_limit` per user, given well-formed promotion rows. -/
theorem promo_limits_guarded :
    (∀ db db' : PrDB, promoWF db → promoLimitInv db →
      Relation.ReflTransGen PromoStep db db' → promoLimitInv db') ∧
    (∀ (now : Int) (vreq : ValidationReq) (db : PrDB) (p : PromoR),
      db.promotions.find? (fun x => x.code == vreq.code) = some p →
      (validatePromotion now vreq db).is_valid = true →
      (∀ l, p.usage_limit = some l → l ≠ 0 → p.usage_count < l) ∧
      (p.per_user_limit ≠ 0 →
        (userUsages db.usages p.promotion_id vreq.user_id : Int) < p.per_user_limit)) := by
  constructor
  · intro db db' hWF hinv hsteps
    suffices h : promoWF db' ∧ promoLimitInv db' from h.2
    induction hsteps with
    | refl => exact ⟨hWF, hinv⟩
    | tail _ hstep ih => exact promoStep_preserve hstep ih.1 ih.2
  · intro now vreq db p hfind hvalid
    exact validate_ok_bounds hfind hvalid

/-- C7 counterexample: without an interposed validate, `apply_promotion`
accepts a second usage of a promotion with `usage_limit = 1` and
`per_user_limit = 1` by the same user on a fresh booking, taking the
stored usages (and `usage_count`) to 2 — both limits of the claim fail. -/
theorem promo_limits_counterexample :
    promoWF c7db ∧ promoLimitInv c7db ∧
    applyPromotion ⟨1, 7, 1, 5⟩ c7db = Except.ok c7s1 ∧
    applyPromotion ⟨1, 7, 2, 5⟩ c7s1 = Except.ok c7s2 ∧
    ¬ promoLimitInv c7s2 := by
  refine ⟨by decide, ?_, by decide, by decide, ?_⟩
  · intro q hq
    rw [show c7db.promotions =
      [⟨1, none, "PROMO1", "percentage", 10, 0, none, some 1, 0, 1, 0, 100, "active"⟩]
      from rfl] at hq
    rcases List.mem_singleton.mp hq with rfl
    constructor
    · intro l hl hlne
      obtain rfl : (1 : Int) = l := Option.some.inj hl
      simp [promoUsages, c7db]
    · intro hpl uid
      simp [userUsages, c7db]
  · intro h
    have h2 := (h ⟨1, none, "PROMO1", "percentage", 10, 0, none, some 1, 2, 1, 0, 100, "active"⟩
      (by decide)).1 1 rfl (by decide)
    simp [promoUsages, c7s2] at h2

/-- C7 witness: a validated apply on the fresh store keeps the limits, and
`validate_promotion` in that store certifies `usage_count` below the
limit. -/
theorem promo_limits_guarded_witness :
    promoLimitInv c7s1 ∧
    ((⟨1, none, "PROMO1", "percentage", 10, 0, none, some 1, 0, 1, 0, 100, "active"⟩ :
      PromoR).usage_count < 1) := by
  constructor
  · apply promo_limits_guarded.1 c7db c7s1 (by decide)
    · intro q hq
      rw [show c7db.promotions =
        [⟨1, none, "PROMO1", "percentage", 10, 0, none, some 1, 0, 1, 0, 100, "active"⟩]
        from rfl] at hq
      rcases List.mem_singleton.mp hq with rfl
      refine ⟨fun l hl hlne => ?_, fun hpl uid => ?_⟩
      · obtain rfl : (1 : Int) = l := Option.some.inj hl
        simp [promoUsages, c7db]
      · simp [userUsages, c7db]
    · exact Relation.ReflTransGen.single
        (PromoStep.apply ⟨1, 7, 1, 5⟩ 0 ⟨"PROMO1", 7, none, 5⟩
          ⟨1, none, "PROMO1", "percentage", 10, 0, none, some 1, 0, 1, 0, 100, "active"⟩
          (by decide) (by decide) (by decide) rfl (by decide))
  · exact (promo_limits_guarded.2 0 ⟨"PROMO1", 7, none, 5⟩ c7db
      ⟨1, none, "PROMO1", "percentage", 10, 0, none, some 1, 0, 1, 0, 100, "active"⟩
      (by decide) (by decide)).1 1 rfl (by decide)

/-! ## Claim C9: the discount computed by `validate_promotion` -/

theorem validate_ok_eq {now : Int} {req : ValidationReq} {db : PrDB} {p : PromoR}
    (hfind : db.promotions.find? (fun x => x.code == req.code) = some p)
    (hvalid : (validatePromotion now req db).is_valid = true) :
    validatePromotion now req db =
      ⟨true, some p.promotion_id, some (promoDiscount p req.amount), none⟩ := by
  unfold validatePromotion at hvalid ⊢
  split at hvalid
  · rename_i hp2
    rw [hfind] at hp2
    simp at hp2
  · rename_i p2 hp2
    rw [hfind] at hp2
    obtain rfl : p = p2 := Option.some.inj hp2
    split_ifs at hvalid ⊢ <;> simp_all

theorem promoDiscount_pct_capped (p : PromoR) (amount : ℚ)
    (h1 : p.discount_type = "percentage") (h2 : truthyOQ p.maximum_discount = true) :
    promoDiscount p amount =
      min (p.maximum_discount.getD 0) (amount * p.discount_value / 100) := by
  unfold promoDiscount
  rw [if_pos (by simp [h1])]
  simp only [h2, Bool.true_and, decide_eq_true_eq]
  rcases le_or_lt (amount * p.discount_value / 100) (p.maximum_discount.getD 0) with h | h
  · rw [if_neg (not_lt.mpr h), min_eq_right h]
  · rw [if_pos h, min_eq_left (le_of_lt h)]

theorem promoDiscount_pct_uncapped (p : PromoR) (amount : ℚ)
    (h1 : p.discount_type = "percentage") (h2 : truthyOQ p.maximum_discount = false) :
    promoDiscount p amount = amount * p.discount_value / 100 := by
  unfold promoDiscount
  rw [if_pos (by simp [h1])]
  simp [h2]

theorem promoDiscount_fixed (p : PromoR) (amount : ℚ)
    (h1 : p.discount_type = "fixed_amount") :
    promoDiscount p amount = min amount p.discount_value := by
  unfold promoDiscount
  rw [if_neg (by simp [h1]), if_pos (by simp [h1])]
  rcases lt_or_le amount p.discount_value with h | h
  · rw [if_pos h, min_eq_left (le_of_lt h)]
  · rw [if_neg (not_lt.mpr h), min_eq_right h]

theorem promoDiscount_bounds (p : PromoR) (amount : ℚ)
    (hamt : 0 ≤ amount) (hdv : 0 < p.discount_value)
    (hpct : p.discount_type = "percentage" → p.discount_value ≤ 100)
    (hmax : ∀ m, p.maximum_discount = some m → 0 ≤ m) :
    0 ≤ promoDiscount p amount ∧ promoDiscount p amount ≤ amount := by
  have hd0 : p.discount_type = "percentage" →
      0 ≤ amount * p.discount_value / 100 ∧ amount * p.discount_value / 100 ≤ amount := by
    intro h1
    constructor
    · exact div_nonneg (mul_nonneg hamt (le_of_lt hdv)) (by norm_num)
    · rw [div_le_iff (by norm_num : (0:ℚ) < 100)]
      calc amount * p.discount_value ≤ amount * 100 :=
            mul_le_mul_of_nonneg_left (hpct h1) hamt
        _ = amount * 100 := rfl
  by_cases h1 : p.discount_type = "percentage"
  · cases h2 : truthyOQ p.maximum_discount with
    | true =>
      rw [promoDiscount_pct_capped p amount h1 h2]
      have hm0 : 0 ≤ p.maximum_discount.getD 0 := by
        cases hm : p.maximum_discount with
        | none => simp
        | some m => simpa using hmax m hm
      exact ⟨le_min hm0 (hd0 h1).1, le_trans (min_le_right _ _) (hd0 h1).2⟩
    | false =>
      rw [promoDiscount_pct_uncapped p amount h1 h2]
      exact hd0 h1
  · by_cases h3 : p.discount_type = "fixed_amount"
    · rw [promoDiscount_fixed p amount h3]
      exact ⟨le_min hamt (le_of_lt hdv), min_le_left _ _⟩
    · have hz : promoDiscount p amount = 0 := by
        unfold promoDiscount
        rw [if_neg (by simp [h1]), if_neg (by simp [h3])]
      rw [hz]
      exact ⟨le_refl 0, hamt⟩

/-- C9 (amended): when `validate_promotion` succeeds for the promotion its
code lookup finds, it returns `promoDiscount` — for percentage promotions
`amount * discount_value / 100` capped at a truthy `maximum_discount`, for
fixed-amount promotions `discount_value` capped at the order amount — and
the discount is nonnegative and at most the order amount PROVIDED the
order amount is nonnegative, the (schema-enforced) `discount_value` is
positive and at most 100 for percentage promotions, and any set
`maximum_discount` is nonnegative; `PromotionValidationRequest` itself
never checks the sign of `amount`, so a negative amount yields a negative
discount (see the counterexample).  The spec's `SAVE10` scenario holds:
10% off with minimum 20.00 gives 5.00 on 50.00 and a minimum-amount error
on 10.00. -/
theorem validate_discount_bounds :
    (∀ (now : Int) (req : ValidationReq) (db : PrDB) (p : PromoR),
      db.promotions.find? (fun x => x.code == req.code) = some p →
      (validatePromotion now req db).is_valid = true →
      (validatePromotion now req db).discount_amount = some (promoDiscount p req.amount)) ∧
    (∀ (p : PromoR) (amount : ℚ),
      p.discount_type = "percentage" → truthyOQ p.maximum_discount = true →
      promoDiscount p amount =
        min (p.maximum_discount.getD 0) (amount * p.discount_value / 100)) ∧
    (∀ (p : PromoR) (amount : ℚ),
      p.discount_type = "percentage" → truthyOQ p.maximum_discount = false →
      promoDiscount p amount = amount * p.discount_value / 100) ∧
    (∀ (p : PromoR) (amount : ℚ), p.discount_type = "fixed_amount" →
      promoDiscount p amount = min amount p.discount_value) ∧
    (∀ (p : PromoR) (amount : ℚ), 0 ≤ amount → 0 < p.discount_value →
      (p.discount_type = "percentage" → p.discount_value ≤ 100) →
      (∀ m, p.maximum_discount = some m → 0 ≤ m) →
      0 ≤ promoDiscount p amount ∧ promoDiscount p amount ≤ amount) ∧
    (validatePromotion 0 ⟨"SAVE10", 42, none, 50⟩ save10db).is_valid = true ∧
    (validatePromotion 0 ⟨"SAVE10", 42, none, 50⟩ save10db).discount_amount = some 5 ∧
    validatePromotion 0 ⟨"SAVE10", 42, none, 10⟩ save10db =
      ⟨false, none, none, some (VErr.minAmount 20)⟩ :=
  ⟨fun now req db p hfind hvalid => by rw [validate_ok_eq hfind hvalid],
   promoDiscount_pct_capped, promoDiscount_pct_uncapped, promoDiscount_fixed,
   promoDiscount_bounds,
   by norm_num +decide [validatePromotion, save10db, promoDiscount, truthyQ, truthyOQ,
     truthyOI, truthyN, userUsages],
   by norm_num +decide [validatePromotion, save10db, promoDiscount, truthyQ, truthyOQ,
     truthyOI, truthyN, userUsages],
   by norm_num +decide [validatePromotion, save10db, promoDiscount, truthyQ, truthyOQ,
     truthyOI, truthyN, userUsages]⟩

/-- C9 counterexample: the validator accepts a negative order amount (the
request schema has no sign check), and the percentage discount computed
for `NOMIN` (10% off, no minimum) on amount -50.00 is -5.00 — the claimed
"never negative" bound fails. -/
theorem validate_discount_counterexample :
    validatePromotion 0 ⟨"NOMIN", 42, none, -50⟩ save10db =
      ⟨true, some 2, some (-5), none⟩ ∧
    ¬ ((0 : ℚ) ≤ -5) :=
  ⟨by norm_num +decide [validatePromotion, save10db, promoDiscount, truthyQ, truthyOQ,
     truthyOI, truthyN, userUsages],
   by norm_num⟩

/-- C9 witness: the general conjuncts applied to the concrete `SAVE10`
promotion at amount 50. -/
theorem validate_discount_bounds_witness :
    (validatePromotion 0 ⟨"SAVE10", 42, none, 50⟩ save10db).discount_amount =
      some (promoDiscount
        ⟨1, none, "SAVE10", "percentage", 10, 20, none, none, 0, 1, 0, 1000000, "active"⟩
        50) ∧
    0 ≤ promoDiscount
      ⟨1, none, "SAVE10", "percentage", 10, 20, none, none, 0, 1, 0, 1000000, "active"⟩ 50 ∧
    promoDiscount
      ⟨1, none, "SAVE10", "percentage", 10, 20, none, none, 0, 1, 0, 1000000, "active"⟩ 50
      ≤ 50 ∧
    promoDiscount
      ⟨1, none, "SAVE10", "percentage", 10, 20, none, none, 0, 1, 0, 1000000, "active"⟩ 50
      = 50 * (10 : ℚ) / 100 :=
  ⟨validate_discount_bounds.1 0 ⟨"SAVE10", 42, none, 50⟩ save10db
    ⟨1, none, "SAVE10", "percentage", 10, 20, none, none, 0, 1, 0, 1000000, "active"⟩
    (by decide)
    (by norm_num +decide [validatePromotion, save10db, promoDiscount, truthyQ, truthyOQ,
      truthyOI, truthyN, userUsages]),
   (validate_discount_bounds.2.2.2.2.1
     ⟨1, none, "SAVE10", "percentage", 10, 20, none, none, 0, 1, 0, 1000000, "active"⟩ 50
     (by norm_num) (by norm_num) (fun _ => by norm_num) (fun m hm => by simp at hm)).1,
   (validate_discount_bounds.2.2.2.2.1
     ⟨1, none, "SAVE10", "percentage", 10, 20, none, none, 0, 1, 0, 1000000, "active"⟩ 50
     (by norm_num) (by norm_num) (fun _ => by norm_num) (fun m hm => by simp at hm)).2,
   validate_discount_bounds.2.2.1
     ⟨1, none, "SAVE10", "percentage", 10, 20, none, none, 0, 1, 0, 1000000, "active"⟩ 50
     rfl rfl⟩

end BookingSys
